import Mathlib

/-!
# Rubinius execution core: interpreter handlers, thread state, root tracing

A shallow embedding of `machine/thread_state.cpp` and of the handlers under
`machine/interpreter/`.

Conventions of the embedding.

* A managed reference (`Object*` and every pointer cast to it) is a machine word, `Obj`.
  Words are compared against the null pointer (`if(ptr)`) and against the nil immediate
  (`nil_p()`), exactly as the source does.
* Memory that the source reaches by dereferencing a pointer is a total map from words to
  the record stored there (`Memory`); C arrays (`stk`, the locals, the inline arguments,
  the opcode stream) are total maps from indices to cells, so an access is never refused.
* The `previous` chain of call frames is a list: the head is the top frame and the tail of
  a frame is what `frame->previous` reaches. Every frame owns its `Arguments` and its
  `StackVariables`.
* Lock operations, writes of blocking-state fields and wake actions of the wait and wakeup
  protocol are recorded, in program order, in a list of `Event`s returned by the operation.
-/

namespace Rubinius

/-! ## Managed words and heap records -/

/-- A machine word that holds an `Object*` (a reference or an immediate). -/
abbrev Obj := Nat

/-- The null pointer, what `if(ptr)` tests against. -/
def NULL : Obj := 0

/-- Modelled from the spec: the nil immediate `cNil` (its header is not among the sources);
a fixed word, here the tagged value 0x1a, that no operation below inspects otherwise than
through `nil_p`. -/
def cNil : Obj := 0x1a

/-- The test `obj->nil_p()`. -/
def nil_p (o : Obj) : Bool := o == cNil

/-- One entry of a captured call stack (`Location*`). -/
abbrev Location := Nat

/-- The part of `MachineCode` the tracer reads. -/
structure MachineCode where
  number_of_locals : Int
deriving DecidableEq, Repr

/-- The part of `CompiledCode` the tracer reads: `stack_size()->to_native()` and
`machine_code()`. -/
structure CompiledCode where
  stack_size : Int
  machine_code : MachineCode
deriving DecidableEq, Repr

/-- The part of `Exception` the checkpoint reads and writes: `locations()` is nil (`none`)
or an array of locations. -/
structure Exception where
  locations : Option (List Location)
deriving DecidableEq, Repr

/-- Modelled from the spec: the reasons an `UnwindState` can carry (`class/unwind_state.hpp`
is not among the sources): nothing raised, an exception, a thread-kill condition. -/
inductive RaiseReason where
  | cNone
  | cException
  | cThreadKill
deriving DecidableEq, Repr

/-- Modelled from the spec: the unwind mechanism through which a checkpoint raises
(`class/unwind_state.hpp` is not among the sources): the reason and the exception raised. -/
structure UnwindState where
  raise_reason : RaiseReason
  current_exception : Obj
deriving DecidableEq, Repr

/-- The part of `Fiber` the checkpoint reads: `root_p()`. -/
structure Fiber where
  root_p : Bool
deriving DecidableEq, Repr

/-- The part of `Thread` the context reads and writes: `current_fiber()` and the flag set
by `sleep(state, cTrue)` and cleared by `sleep(state, cFalse)`. -/
structure Thread where
  current_fiber : Obj
  sleep : Bool
deriving DecidableEq, Repr

/-- The managed heap reached through `memory()`: for every word, the record a pointer of
each class finds there. -/
structure Memory where
  compiled_code : Obj → CompiledCode
  exception : Obj → Exception
  unwind_state : Obj → UnwindState
  thread : Obj → Thread
  fiber : Obj → Fiber

/-! ## Call frames -/

/-- The class `Arguments` as the tracer uses it: `recv()`, `block()`,
`argument_container()` (null when the arguments are not packed), the inline array
`arguments()` and its length `total()`. -/
structure Arguments where
  recv : Obj
  block : Obj
  argument_container : Obj
  arguments : Nat → Obj
  total : Nat

/-- The class `StackVariables`, the scope of a frame. -/
structure StackVariables where
  self_ : Obj
  block_ : Obj
  module_ : Obj
  locals_ : Nat → Obj
  last_match_ : Obj
  parent_ : Obj
  on_heap_ : Obj

/-- One activation record. `previous` is not a field: it is the rest of the list the frame
stands in. `arguments` and `scope` are `none` for a null pointer. The four booleans are the
flag tests `inline_method_p()`, `multiple_scopes_p()`, `native_method_p()` and
`is_inline_block()`. -/
structure CallFrame where
  return_value : Obj
  lexical_scope_ : Obj
  compiled_code : Obj
  stk : Nat → Obj
  top_scope_ : Obj
  block_env : Obj
  arguments : Option Arguments
  scope : Option StackVariables
  inline_method_p : Bool
  multiple_scopes_p : Bool
  native_method_p : Bool
  is_inline_block : Bool
  ip : Int

/-- The accessor `StackVariables::get_local`. -/
def StackVariables.get_local (scope : StackVariables) (i : Nat) : Obj :=
  scope.locals_ i

/-- The accessor `StackVariables::set_local`. -/
def StackVariables.set_local (scope : StackVariables) (i : Nat) (v : Obj) : StackVariables :=
  { scope with locals_ := Function.update scope.locals_ i v }

/-- Modelled from the spec: `CallFrame::set_block_env` (`call_frame.hpp` is not among the
sources); the block environment is a reference slot attached to the frame, read by
`block_env()` and written by this. -/
def CallFrame.set_block_env (frame : CallFrame) (be : Obj) : CallFrame :=
  { frame with block_env := be }

/-- Modelled from the spec: `CallFrame::next_ip` (`call_frame.hpp` is not among the
sources); advances the instruction pointer by a width. -/
def CallFrame.next_ip (frame : CallFrame) (width : Int) : CallFrame :=
  { frame with ip := frame.ip + width }

/-! ## Thread context -/

/-- Modelled from the spec: the park primitive (`park.hpp` is not among the sources), of
which the context reads only the park flag `parked_p()`. -/
structure Park where
  parked_ : Bool
deriving DecidableEq, Repr

/-- The diagnostics record the stop-the-world trace fills in. -/
structure MachineMetrics where
  checkpoints : Nat
  stops : Nat
deriving DecidableEq, Repr

/-- The class `ThreadState`: the members the operations below read or write. -/
structure ThreadState where
  metrics_ : MachineMetrics
  os_thread_ : Nat
  id_ : Nat
  memory : Memory
  call_frame_ : List CallFrame
  park_ : Park
  stack_cushion_ : Nat
  interrupt_with_signal_ : Bool
  interrupt_by_kill_ : Bool
  check_local_interrupts_ : Bool
  thread_step_ : Bool
  zombie_ : Bool
  main_thread_ : Bool
  checkpoints_ : Nat
  stops_ : Nat
  waiting_channel_ : Obj
  interrupted_exception_ : Obj
  thread_ : Obj
  fiber_ : Obj
  waiting_object_ : Obj
  custom_wakeup_ : Nat
  custom_wakeup_data_ : Nat
  unwind_state_ : Obj

/-- Modelled from the spec: `Park::parked_p` (`park.hpp` is not among the sources), the
park flag. -/
def Park.parked_p (park : Park) : Bool := park.parked_

/-- Modelled from the spec: the flag setter `set_check_local_interrupts` (the class header
is not among the sources). -/
def ThreadState.set_check_local_interrupts (ts : ThreadState) : ThreadState :=
  { ts with check_local_interrupts_ := true }

/-- Modelled from the spec: the flag setter `set_interrupt_by_kill` (the class header is not
among the sources). -/
def ThreadState.set_interrupt_by_kill (ts : ThreadState) : ThreadState :=
  { ts with interrupt_by_kill_ := true }

/-- Modelled from the spec: the flag setter `clear_interrupt_by_kill` (the class header is
not among the sources). -/
def ThreadState.clear_interrupt_by_kill (ts : ThreadState) : ThreadState :=
  { ts with interrupt_by_kill_ := false }

/-- Modelled from the spec: the flag setter `clear_thread_step` (the class header is not
among the sources). -/
def ThreadState.clear_thread_step (ts : ThreadState) : ThreadState :=
  { ts with thread_step_ := false }

/-- The method `ThreadState::clear_interrupted_exception`. -/
def ThreadState.clear_interrupted_exception (ts : ThreadState) : ThreadState :=
  { ts with interrupted_exception_ := cNil }

/-- The method `ThreadState::set_thread`. -/
def ThreadState.set_thread (ts : ThreadState) (thread : Obj) : ThreadState :=
  { ts with thread_ := thread }

/-- The method `ThreadState::set_fiber`. -/
def ThreadState.set_fiber (ts : ThreadState) (fiber : Obj) : ThreadState :=
  { ts with fiber_ := fiber }

/-- The method `ThreadState::unwind_state`: the unwind state of the context, created on
first use. `create` is `UnwindState::create`, which returns the address of a new object. -/
def ThreadState.unwind_state (create : ThreadState → Obj) (ts : ThreadState) :
    Obj × ThreadState :=
  if ts.unwind_state_ = NULL then
    (create ts, { ts with unwind_state_ := create ts })
  else
    (ts.unwind_state_, ts)

/-- Modelled from the spec: `UnwindState::raise_exception` (`class/unwind_state.hpp` is not
among the sources) on the unwind state stored at `ust`: an exception is raised through the
unwind mechanism. -/
def UnwindState.raise_exception (ust : Obj) (exc : Obj) (mem : Memory) : Memory :=
  let raised : UnwindState :=
    { raise_reason := RaiseReason.cException, current_exception := exc }
  { mem with unwind_state := Function.update mem.unwind_state ust raised }

/-- Modelled from the spec: `UnwindState::raise_thread_kill` (`class/unwind_state.hpp` is
not among the sources) on the unwind state stored at `ust`: a thread-kill condition is
raised. -/
def UnwindState.raise_thread_kill (ust : Obj) (mem : Memory) : Memory :=
  let raised : UnwindState :=
    { mem.unwind_state ust with raise_reason := RaiseReason.cThreadKill }
  { mem with unwind_state := Function.update mem.unwind_state ust raised }

/-- The writer `exc->locations(state, value)`. -/
def Exception.set_locations (exc : Obj) (value : List Location) (mem : Memory) : Memory :=
  { mem with exception := Function.update mem.exception exc ({ locations := some value }) }

/-- The test `exc->locations()->nil_p() || exc->locations()->size() == 0`. -/
def Exception.no_locations (e : Exception) : Bool :=
  match e.locations with
  | none => true
  | some l => l.length == 0

/-- The method `ThreadState::check_thread_raise_or_kill`, called on the context that is
also its `state` argument. Parameters: `from_call_stack` is `Location::from_call_stack`,
`create` is `UnwindState::create`, `yield_debugger` is `Helpers::yield_debugger`, which
returns a word (null when the hook declines to resume) and the context it leaves. -/
def ThreadState.check_thread_raise_or_kill
    (from_call_stack : ThreadState → List Location)
    (create : ThreadState → Obj)
    (yield_debugger : ThreadState → Obj → Obj × ThreadState)
    (state : ThreadState) : Bool × ThreadState :=
  let exc := state.interrupted_exception_
  if !nil_p exc then
    let state := state.clear_interrupted_exception
    -- Only write the locations if there are none.
    let state :=
      if (state.memory.exception exc).no_locations then
        { state with memory := Exception.set_locations exc (from_call_stack state) state.memory }
      else state
    let (ust, state) := state.unwind_state create
    (true, { state with memory := UnwindState.raise_exception ust exc state.memory })
  else if state.interrupt_by_kill_ then
    let state :=
      if (state.memory.fiber (state.memory.thread state.thread_).current_fiber).root_p then
        state.clear_interrupt_by_kill
      else
        state.set_check_local_interrupts
    let (ust, state) := state.unwind_state create
    (true, { state with memory := UnwindState.raise_thread_kill ust state.memory })
  else if state.thread_step_ then
    -- If the current thread is trying to step, debugger wise, then assist!
    let state := state.clear_thread_step
    let (r, state) := yield_debugger state cNil
    if r = NULL then (true, state) else (false, state)
  else
    (false, state)

/-- The method `ThreadState::set_zombie()`. -/
def ThreadState.set_zombie (ts : ThreadState) : ThreadState :=
  let ts := ts.set_thread cNil
  let ts := ts.set_fiber cNil
  { ts with zombie_ := true }

/-- The method `ThreadState::set_zombie(STATE)`. `delete_vm` is `ThreadNexus::delete_vm`, an
operation of the thread nexus given the context: it tells what the nexus leaves of the
context. -/
def ThreadState.set_zombie_STATE (delete_vm : ThreadState → ThreadState) (ts : ThreadState) :
    ThreadState :=
  (delete_vm ts).set_zombie

/-- The method `ThreadState::validate_stack_size`. `Exception::raise_runtime_error` ends the
call with an error that carries the message. -/
def ThreadState.validate_stack_size (ts : ThreadState) (size : Nat) : Except String Unit :=
  if ts.stack_cushion_ > size then
    Except.error "requested stack size is invalid"
  else
    Except.ok ()

/-- The loop `while(frame && up-- > 0) frame = frame->previous` that opens `get_call_frame`
and its siblings. A pointer to a frame is the chain that starts at that frame, the null
pointer is the empty chain. The counter `up` is a `ssize_t`; what the last decrement leaves
in it is never read. -/
def walk_previous : List CallFrame → Int → List CallFrame
  | [], _ => []
  | frame :: previous, up =>
    if up > 0 then walk_previous previous (up - 1) else frame :: previous

/-- The method `ThreadState::get_call_frame`. -/
def ThreadState.get_call_frame (ts : ThreadState) (up : Int) : List CallFrame :=
  walk_previous ts.call_frame_ up

/-- The method `ThreadState::set_previous_frame`: `frame->previous = call_frame_`. The
result is the chain that starts at `frame` afterwards. -/
def ThreadState.set_previous_frame (ts : ThreadState) (frame : CallFrame) : List CallFrame :=
  frame :: ts.call_frame_

/-- The second loop of `ThreadState::get_variables_frame`: from `frame` on, following
`previous`, the first frame that is not an inline block, is not a native-method frame and
has a scope is returned, and null when the chain ends first. -/
def find_variables_frame : List CallFrame → List CallFrame
  | [] => []
  | frame :: previous =>
    if !frame.is_inline_block && !frame.native_method_p && frame.scope.isSome then
      frame :: previous
    else
      find_variables_frame previous

/-- The method `ThreadState::get_variables_frame`. -/
def ThreadState.get_variables_frame (ts : ThreadState) (up : Int) : List CallFrame :=
  find_variables_frame (walk_previous ts.call_frame_ up)

/-- The enumeration `object_type` (its header is not among the sources). -/
abbrev object_type := Nat

/-- What the object headers, which are not among the sources, define and `type_assert`
uses: the tests `reference_p()` and `fixnum_p()` on a word, the `type_id()` of the object a
reference points to, the description `to_string(state, true)` of a value, and the
enumerator `FixnumType`. -/
structure ObjectModel where
  reference_p : Obj → Bool
  fixnum_p : Obj → Bool
  type_id : Obj → object_type
  to_string : Obj → String
  FixnumType : object_type

/-- The type error `Exception::raise_type_error(state, type, obj, message)` raises. -/
structure TypeError where
  type : object_type
  obj : Obj
  message : String
deriving DecidableEq, Repr

/-- The function `type_assert`. Raising the type error ends the call with that error. -/
def type_assert (om : ObjectModel) (obj : Obj) (type : object_type) (reason : String) :
    Except TypeError Unit :=
  if (om.reference_p obj && om.type_id obj != type)
      || (type == om.FixnumType && !om.fixnum_p obj) then
    Except.error { type := type, obj := obj, message := reason ++ ": " ++ om.to_string obj }
  else
    Except.ok ()

/-! ## Wait and wakeup protocol -/

/-- The two locks the protocol takes: the context's own `interrupt_lock_` and the lock
`memory()->wait_lock()` owned by the memory manager. -/
inductive Lock where
  | interrupt_lock_
  | wait_lock
deriving DecidableEq, Repr

/-- The members of the context whose reads and writes the protocol orders. -/
inductive Field where
  | check_local_interrupts_
  | interrupt_with_signal_
  | interrupt_by_kill_
  | interrupted_exception_
  | waiting_channel_
  | waiting_object_
  | custom_wakeup_
  | custom_wakeup_data_
deriving DecidableEq, Repr

/-- The signal `wakeup` sends. -/
inductive Signal where
  | SIGVTALRM
deriving DecidableEq, Repr

/-- What an operation of the protocol does that another context can observe, in program
order: lock and unlock, read and write of a member, and the wake actions `park_->unpark()`,
`pthread_kill(os_thread_, sig)`, `chan->send(state, value)` and
`(*custom_wakeup_)(custom_wakeup_data_)`. -/
inductive Event where
  | lock (l : Lock)
  | unlock (l : Lock)
  | read (f : Field)
  | write (f : Field)
  | unpark
  | pthread_kill (os_thread : Nat) (sig : Signal)
  | channel_send (chan : Obj) (value : Obj)
  | custom_wakeup (func : Nat) (data : Nat)
deriving DecidableEq, Repr

/-- What an operation of the protocol returns: its result, the context it leaves and the
events it performed. -/
structure Outcome (α : Type) where
  result : α
  state : ThreadState
  events : List Event

/-- A scope opened by a lock guard (`std::lock_guard`, `SpinLock::LockGuard`) on `l`: the
lock is taken on entry and released when the scope is left, after `body`. -/
def lock_guard (l : Lock) (body : List Event) : List Event :=
  Event.lock l :: (body ++ [Event.unlock l])

/-- The method `ThreadState::wakeup`, on a platform other than Windows. -/
def ThreadState.wakeup (ts : ThreadState) : Outcome Bool :=
  let ts := ts.set_check_local_interrupts
  let wait := ts.waiting_object_
  let entry := [Event.write Field.check_local_interrupts_, Event.read Field.waiting_object_]
  if ts.park_.parked_p then
    { result := true, state := ts,
      events := lock_guard Lock.interrupt_lock_ (entry ++ [Event.unpark]) }
  else if ts.interrupt_with_signal_ then
    { result := true, state := ts,
      events := lock_guard Lock.interrupt_lock_
        (entry ++ [Event.read Field.interrupt_with_signal_,
          Event.pthread_kill ts.os_thread_ Signal.SIGVTALRM,
          Event.unlock Lock.interrupt_lock_]) }
  else if !nil_p wait then
    { result := true, state := ts,
      events := lock_guard Lock.interrupt_lock_
        (entry ++ [Event.read Field.interrupt_with_signal_,
          Event.unlock Lock.interrupt_lock_]) }
  else
    let chan := ts.waiting_channel_
    if !nil_p chan then
      { result := true, state := ts,
        events := lock_guard Lock.interrupt_lock_
          (entry ++ [Event.read Field.interrupt_with_signal_,
            Event.read Field.waiting_channel_,
            Event.unlock Lock.interrupt_lock_,
            Event.channel_send chan cNil]) }
    else if ts.custom_wakeup_ ≠ 0 then
      { result := true, state := ts,
        events := lock_guard Lock.interrupt_lock_
          (entry ++ [Event.read Field.interrupt_with_signal_,
            Event.read Field.waiting_channel_,
            Event.read Field.custom_wakeup_,
            Event.unlock Lock.interrupt_lock_,
            Event.read Field.custom_wakeup_,
            Event.read Field.custom_wakeup_data_,
            Event.custom_wakeup ts.custom_wakeup_ ts.custom_wakeup_data_]) }
    else
      { result := false, state := ts,
        events := lock_guard Lock.interrupt_lock_
          (entry ++ [Event.read Field.interrupt_with_signal_,
            Event.read Field.waiting_channel_,
            Event.read Field.custom_wakeup_]) }

/-- The method `ThreadState::clear_waiter`. -/
def ThreadState.clear_waiter (ts : ThreadState) : Outcome Unit :=
  { result := (),
    state := { ts with
      interrupt_with_signal_ := false
      waiting_channel_ := cNil
      waiting_object_ := cNil
      custom_wakeup_ := 0
      custom_wakeup_data_ := 0 },
    events := lock_guard Lock.wait_lock
      [Event.write Field.interrupt_with_signal_,
        Event.write Field.waiting_channel_,
        Event.write Field.waiting_object_,
        Event.write Field.custom_wakeup_,
        Event.write Field.custom_wakeup_data_] }

/-- The setter `Thread::sleep(state, value)` on the thread object stored at `thread`. -/
def Thread.set_sleep (thread : Obj) (value : Bool) (mem : Memory) : Memory :=
  let slept : Thread := { mem.thread thread with sleep := value }
  { mem with thread := Function.update mem.thread thread slept }

/-- The method `ThreadState::wait_on_channel`. -/
def ThreadState.wait_on_channel (ts : ThreadState) (chan : Obj) : Outcome Unit :=
  let ts := { ts with memory := Thread.set_sleep ts.thread_ true ts.memory }
  { result := (),
    state := { ts with waiting_channel_ := chan },
    events := lock_guard Lock.interrupt_lock_ [Event.write Field.waiting_channel_] }

/-- The method `ThreadState::wait_on_custom_function`. -/
def ThreadState.wait_on_custom_function (ts : ThreadState) (func : Nat) (data : Nat) :
    Outcome Unit :=
  { result := (),
    state := { ts with custom_wakeup_ := func, custom_wakeup_data_ := data },
    events := lock_guard Lock.wait_lock
      [Event.write Field.custom_wakeup_, Event.write Field.custom_wakeup_data_] }

/-- The method `ThreadState::register_raise`. -/
def ThreadState.register_raise (ts : ThreadState) (exc : Obj) : Outcome Unit :=
  let ts := { ts with interrupted_exception_ := exc }
  { result := (),
    state := ts.set_check_local_interrupts,
    events := lock_guard Lock.interrupt_lock_
      [Event.write Field.interrupted_exception_, Event.write Field.check_local_interrupts_] }

/-- The method `ThreadState::register_kill`. -/
def ThreadState.register_kill (ts : ThreadState) : Outcome Unit :=
  let ts := ts.set_interrupt_by_kill
  { result := (),
    state := ts.set_check_local_interrupts,
    events := lock_guard Lock.interrupt_lock_
      [Event.write Field.interrupt_by_kill_, Event.write Field.check_local_interrupts_] }

/-! ## Root tracing -/

/-- The slots of one call frame that the tracer can present, named after the members. -/
inductive FrameSlot where
  | return_value
  | lexical_scope_
  | compiled_code
  | stk (i : Nat)
  | top_scope_
  | block_env
  | recv
  | block
  | argument_container
  | arguments (i : Nat)
  | self_
  | block_
  | module_
  | locals_ (i : Nat)
  | last_match_
  | parent_
  | on_heap_
deriving DecidableEq, Repr

/-- The slots of a thread context: its own members, and the slots of the frame standing
`depth` steps of `previous` below the top frame. -/
inductive Slot where
  | waiting_channel_
  | interrupted_exception_
  | thread_
  | fiber_
  | waiting_object_
  | unwind_state_
  | frame (depth : Nat) (slot : FrameSlot)
deriving DecidableEq, Repr

/-- The visitor `std::function<void (STATE, Object**)>`: called on a slot, it sees which slot
it is and the word in it, returns the word to leave there, and updates a state of its own. -/
abbrev Visitor (σ : Type) := Slot → Obj → σ → Obj × σ

/-- The loop `for(i = 0; i < n; i++) body(i)`. -/
def for_loop {α : Type} (n : Nat) (body : Nat → α → α) (a : α) : α :=
  (List.range n).foldl (fun acc i => body i acc) a

/-- The loop `for(i = 0; i < n; i++) f(state, &array[i])` over a C array. -/
def visit_array {σ : Type} (f : Visitor σ) (slot : Nat → Slot) (n : Nat)
    (array : Nat → Obj) (s : σ) : (Nat → Obj) × σ :=
  for_loop n
    (fun i acc =>
      let (v, s) := f (slot i) (acc.1 i) acc.2
      (Function.update acc.1 i v, s))
    (array, s)

/-- Modelled from the spec: `Arguments::set_recv` (`arguments.hpp` is not among the
sources), the writer of the receiver slot. -/
def Arguments.set_recv (args : Arguments) (v : Obj) : Arguments := { args with recv := v }

/-- Modelled from the spec: `Arguments::set_block` (`arguments.hpp` is not among the
sources), the writer of the block slot. -/
def Arguments.set_block (args : Arguments) (v : Obj) : Arguments := { args with block := v }

/-- Modelled from the spec: `Arguments::update_argument_container` (`arguments.hpp` is not
among the sources), the writer of the packed argument container. -/
def Arguments.update_argument_container (args : Arguments) (v : Obj) : Arguments :=
  { args with argument_container := v }

/-- The block `if(!frame->inline_method_p() && args) { ... }` of both tracers, on the
arguments of the frame at `depth`. -/
def visit_arguments {σ : Type} (f : Visitor σ) (depth : Nat) (args : Arguments) (s : σ) :
    Arguments × σ :=
  let (recv, s) := f (Slot.frame depth FrameSlot.recv) args.recv s
  let args := args.set_recv recv
  let (block, s) := f (Slot.frame depth FrameSlot.block) args.block s
  let args := args.set_block block
  if args.argument_container ≠ NULL then
    let (tup, s) := f (Slot.frame depth FrameSlot.argument_container) args.argument_container s
    (args.update_argument_container tup, s)
  else
    let (ary, s) :=
      visit_array f (fun i => Slot.frame depth (FrameSlot.arguments i)) args.total
        args.arguments s
    ({ args with arguments := ary }, s)

/-- The loop over the locals of a scope: `get_local(i)`, the visitor on the copy,
`set_local(i, local)`. -/
def visit_locals {σ : Type} (f : Visitor σ) (depth : Nat) (locals : Nat)
    (scope : StackVariables) (s : σ) : StackVariables × σ :=
  for_loop locals
    (fun i acc =>
      let (v, s) := f (Slot.frame depth (FrameSlot.locals_ i)) (acc.1.get_local i) acc.2
      (acc.1.set_local i v, s))
    (scope, s)

/-- The block `if(frame->scope && frame->compiled_code) { ... }` of both tracers, on the scope
of the frame at `depth`; `locals` is the `number_of_locals` of the frame's code. -/
def visit_scope {σ : Type} (f : Visitor σ) (depth : Nat) (locals : Int)
    (scope : StackVariables) (s : σ) : StackVariables × σ :=
  let (v, s) := f (Slot.frame depth FrameSlot.self_) scope.self_ s
  let scope := { scope with self_ := v }
  let (v, s) := f (Slot.frame depth FrameSlot.block_) scope.block_ s
  let scope := { scope with block_ := v }
  let (v, s) := f (Slot.frame depth FrameSlot.module_) scope.module_ s
  let scope := { scope with module_ := v }
  let (scope, s) := visit_locals f depth locals.toNat scope s
  let (v, s) := f (Slot.frame depth FrameSlot.last_match_) scope.last_match_ s
  let scope := { scope with last_match_ := v }
  let (v, s) := f (Slot.frame depth FrameSlot.parent_) scope.parent_ s
  let scope := { scope with parent_ := v }
  let (v, s) := f (Slot.frame depth FrameSlot.on_heap_) scope.on_heap_ s
  ({ scope with on_heap_ := v }, s)

/-- The part both tracers share after the block environment: the arguments block and the
scope block. -/
def visit_arguments_and_scope {σ : Type} (f : Visitor σ) (mem : Memory) (depth : Nat)
    (frame : CallFrame) (s : σ) : CallFrame × σ :=
  let (frame, s) :=
    match frame.inline_method_p, frame.arguments with
    | false, some args =>
      let (args, s) := visit_arguments f depth args s
      ({ frame with arguments := some args }, s)
    | _, _ => (frame, s)
  match frame.scope with
  | some scope =>
    if frame.compiled_code ≠ NULL then
      let locals := (mem.compiled_code frame.compiled_code).machine_code.number_of_locals
      let (scope, s) := visit_scope f depth locals scope s
      ({ frame with scope := some scope }, s)
    else (frame, s)
  | none => (frame, s)

/-- The lines both tracers share at the start of a frame: the lexical scope, the compiled
code and, when the code pointer is not null, `stack_size` operand-stack slots. -/
def visit_code_and_stack {σ : Type} (f : Visitor σ) (mem : Memory) (depth : Nat)
    (frame : CallFrame) (s : σ) : CallFrame × σ :=
  let (v, s) := f (Slot.frame depth FrameSlot.lexical_scope_) frame.lexical_scope_ s
  let frame := { frame with lexical_scope_ := v }
  let (v, s) := f (Slot.frame depth FrameSlot.compiled_code) frame.compiled_code s
  let frame := { frame with compiled_code := v }
  if frame.compiled_code ≠ NULL then
    let stack_size := (mem.compiled_code frame.compiled_code).stack_size
    let (stk, s) :=
      visit_array f (fun i => Slot.frame depth (FrameSlot.stk i)) stack_size.toNat frame.stk s
    ({ frame with stk := stk }, s)
  else (frame, s)

/-- The body of the `while(frame)` loop of `ThreadState::visit_objects`, on the frame at
`depth`. -/
def visit_objects_frame {σ : Type} (f : Visitor σ) (mem : Memory) (depth : Nat)
    (frame : CallFrame) (s : σ) : CallFrame × σ :=
  let (frame, s) := visit_code_and_stack f mem depth frame s
  let (v, s) := f (Slot.frame depth FrameSlot.top_scope_) frame.top_scope_ s
  let frame := { frame with top_scope_ := v }
  let (be, s) := f (Slot.frame depth FrameSlot.block_env) frame.block_env s
  let frame := frame.set_block_env be
  visit_arguments_and_scope f mem depth frame s

/-- The `while(frame)` loop of a tracer with per-frame body `body`: the chain from the
frame at `depth` on, each frame once, following `previous`. -/
def visit_chain {σ : Type} (body : Nat → CallFrame → σ → CallFrame × σ) :
    Nat → List CallFrame → σ → List CallFrame × σ
  | _, [], s => ([], s)
  | depth, frame :: previous, s =>
    let (frame, s) := body depth frame s
    let (previous, s) := visit_chain body (depth + 1) previous s
    (frame :: previous, s)

/-- The method `ThreadState::visit_objects`. -/
def ThreadState.visit_objects {σ : Type} (f : Visitor σ) (ts : ThreadState) (s : σ) :
    ThreadState × σ :=
  let (frames, s) := visit_chain (visit_objects_frame f ts.memory) 0 ts.call_frame_ s
  ({ ts with call_frame_ := frames }, s)

/-- The body of the `while(frame)` loop of `ThreadState::trace_objects`, on the frame at
`depth`. -/
def trace_objects_frame {σ : Type} (f : Visitor σ) (mem : Memory) (depth : Nat)
    (frame : CallFrame) (s : σ) : CallFrame × σ :=
  let (v, s) := f (Slot.frame depth FrameSlot.return_value) frame.return_value s
  let frame := { frame with return_value := v }
  let (frame, s) := visit_code_and_stack f mem depth frame s
  let (frame, s) :=
    if frame.multiple_scopes_p && frame.top_scope_ ≠ NULL then
      let (v, s) := f (Slot.frame depth FrameSlot.top_scope_) frame.top_scope_ s
      ({ frame with top_scope_ := v }, s)
    else (frame, s)
  let (frame, s) :=
    if frame.block_env ≠ NULL then
      let (env, s) := f (Slot.frame depth FrameSlot.block_env) frame.block_env s
      (frame.set_block_env env, s)
    else (frame, s)
  visit_arguments_and_scope f mem depth frame s

/-- The method `ThreadState::trace_objects`. The collection of the thread-local allocation
area (`thca_->collect`) touches no member of the context and is left out. -/
def ThreadState.trace_objects {σ : Type} (f : Visitor σ) (ts : ThreadState) (s : σ) :
    ThreadState × σ :=
  let ts := { ts with metrics_ := { ts.metrics_ with checkpoints := ts.checkpoints_ } }
  let ts := { ts with metrics_ := { ts.metrics_ with stops := ts.stops_ } }
  let (v, s) := f Slot.waiting_channel_ ts.waiting_channel_ s
  let ts := { ts with waiting_channel_ := v }
  let (v, s) := f Slot.interrupted_exception_ ts.interrupted_exception_ s
  let ts := { ts with interrupted_exception_ := v }
  let (v, s) := f Slot.thread_ ts.thread_ s
  let ts := { ts with thread_ := v }
  let (v, s) := f Slot.fiber_ ts.fiber_ s
  let ts := { ts with fiber_ := v }
  let (v, s) := f Slot.waiting_object_ ts.waiting_object_ s
  let ts := { ts with waiting_object_ := v }
  let (v, s) := f Slot.unwind_state_ ts.unwind_state_ s
  let ts := { ts with unwind_state_ := v }
  let (frames, s) := visit_chain (trace_objects_frame f ts.memory) 0 ts.call_frame_ s
  ({ ts with call_frame_ := frames }, s)

/-! ## Interpreter handlers -/

/-- The function-pointer type `instructions::Instruction`: a handler takes the context, the
frame and the opcode stream and returns a word. -/
abbrev Instruction := ThreadState → CallFrame → (Int → Int) → Int

/-- The record `instructions::data_<name>` of an instruction, of which the handlers read the
encoded width. -/
structure InstructionData where
  width : Int
deriving DecidableEq, Repr

/-- What an instruction body leaves behind: its boolean report, the context and the frame. -/
structure InstructionResult where
  ok : Bool
  state : ThreadState
  call_frame : CallFrame

/-- The handler `interpreter::send_super_stack_with_splat`. Its parameters are what the
included headers define: the macro `argument`, the instruction body
`instructions::send_super_stack_with_splat`, the two instruction records, and `call`, the
cast of an opcode cell to the handler it addresses. -/
def interpreter.send_super_stack_with_splat
    (argument : (Int → Int) → CallFrame → Int → Int)
    (instr : ThreadState → CallFrame → Int → Int → InstructionResult)
    (data_send_super_stack_with_splat data_unwind : InstructionData)
    (call : Int → Instruction)
    (state : ThreadState) (call_frame : CallFrame) (opcodes : Int → Int) : Int :=
  let literal := argument opcodes call_frame 0
  let count := argument opcodes call_frame 1
  let r := instr state call_frame literal count
  let call_frame :=
    if r.ok then
      r.call_frame.next_ip (data_send_super_stack_with_splat.width + data_unwind.width)
    else
      r.call_frame.next_ip data_send_super_stack_with_splat.width
  call (opcodes call_frame.ip) r.state call_frame opcodes

/-- The handler `interpreter::n_ddiv`. Its parameters are what the included headers
define: the macro `argument`, the instruction body `instructions::n_ddiv`, which is given
the frame and three register operands, the instruction record, and `call`, the cast of an
opcode cell to the handler it addresses. -/
def interpreter.n_ddiv
    (argument : (Int → Int) → CallFrame → Int → Int)
    (instr : CallFrame → Int → Int → Int → CallFrame)
    (data_n_ddiv : InstructionData) (call : Int → Instruction)
    (state : ThreadState) (call_frame : CallFrame) (opcodes : Int → Int) : Int :=
  let call_frame :=
    instr call_frame (argument opcodes call_frame 0) (argument opcodes call_frame 1)
      (argument opcodes call_frame 2)
  let call_frame := call_frame.next_ip data_n_ddiv.width
  call (opcodes call_frame.ip) state call_frame opcodes

/-- The handler `interpreter::n_dge`, with the parameters of `interpreter.n_ddiv`. -/
def interpreter.n_dge
    (argument : (Int → Int) → CallFrame → Int → Int)
    (instr : CallFrame → Int → Int → Int → CallFrame)
    (data_n_dge : InstructionData) (call : Int → Instruction)
    (state : ThreadState) (call_frame : CallFrame) (opcodes : Int → Int) : Int :=
  let call_frame :=
    instr call_frame (argument opcodes call_frame 0) (argument opcodes call_frame 1)
      (argument opcodes call_frame 2)
  let call_frame := call_frame.next_ip data_n_dge.width
  call (opcodes call_frame.ip) state call_frame opcodes

/-- The handler `interpreter::n_dle`, with the parameters of `interpreter.n_ddiv`. -/
def interpreter.n_dle
    (argument : (Int → Int) → CallFrame → Int → Int)
    (instr : CallFrame → Int → Int → Int → CallFrame)
    (data_n_dle : InstructionData) (call : Int → Instruction)
    (state : ThreadState) (call_frame : CallFrame) (opcodes : Int → Int) : Int :=
  let call_frame :=
    instr call_frame (argument opcodes call_frame 0) (argument opcodes call_frame 1)
      (argument opcodes call_frame 2)
  let call_frame := call_frame.next_ip data_n_dle.width
  call (opcodes call_frame.ip) state call_frame opcodes

/-! ## Observations on event lists and on what a tracer presents -/

/-- The wake actions among the events: unpark, signal, channel send, custom callback. -/
def Event.wake_action : Event → Bool
  | Event.unpark => true
  | Event.pthread_kill _ _ => true
  | Event.channel_send _ _ => true
  | Event.custom_wakeup _ _ => true
  | _ => false

/-- A visitor that leaves `g slot v` in a slot holding `v` and keeps, as its state, the list
of the slots it was called on, in call order. -/
def recording (g : Slot → Obj → Obj) : Visitor (List Slot) :=
  fun slot v log => (g slot v, log ++ [slot])

/-- A visitor without state that replaces the content `v` of every slot by `g v`. -/
def relocating (g : Obj → Obj) : Visitor Unit :=
  fun _ v s => (g v, s)

/-- The sequence of slots `visit_objects` presents to a visitor that rewrites by `g`. -/
def ThreadState.visit_objects_presented (g : Slot → Obj → Obj) (ts : ThreadState) :
    List Slot :=
  (ts.visit_objects (recording g) []).2

/-- The sequence of slots `trace_objects` presents to a visitor that rewrites by `g`. -/
def ThreadState.trace_objects_presented (g : Slot → Obj → Obj) (ts : ThreadState) :
    List Slot :=
  (ts.trace_objects (recording g) []).2

/-- Whether every event of the list that satisfies `p` happens while the lock `l` is held;
`held` tells whether the lock is held before the first event. -/
def guarded_by (l : Lock) (p : Event → Bool) : Bool → List Event → Bool
  | _, [] => true
  | held, Event.lock l1 :: rest => guarded_by l p (held || decide (l1 = l)) rest
  | held, Event.unlock l1 :: rest => guarded_by l p (held && !decide (l1 = l)) rest
  | held, e :: rest => (held || !p e) && guarded_by l p held rest

/-- The writes of a member among the events. -/
def Event.is_write : Event → Bool
  | Event.write _ => true
  | _ => false

/-- The slots of the arguments block, in the order presented: receiver, block, then the
packed argument container when there is one and every inline argument slot otherwise. -/
def arguments_slots (depth : Nat) (args : Arguments) : List Slot :=
  [Slot.frame depth FrameSlot.recv, Slot.frame depth FrameSlot.block] ++
    (if args.argument_container ≠ NULL then [Slot.frame depth FrameSlot.argument_container]
     else (List.range args.total).map (fun i => Slot.frame depth (FrameSlot.arguments i)))

/-- The slots of the scope block, in the order presented: self, enclosing block, module,
`locals` local slots, last_match, parent, on_heap. -/
def scope_slots (depth : Nat) (locals : Nat) : List Slot :=
  [Slot.frame depth FrameSlot.self_, Slot.frame depth FrameSlot.block_,
      Slot.frame depth FrameSlot.module_] ++
    (List.range locals).map (fun i => Slot.frame depth (FrameSlot.locals_ i)) ++
    [Slot.frame depth FrameSlot.last_match_, Slot.frame depth FrameSlot.parent_,
      Slot.frame depth FrameSlot.on_heap_]

/-- The slots of the arguments block and of the scope block of a frame whose compiled-code
slot holds `code`: the arguments when the frame is not an inline frame and has arguments,
the scope when the frame has a scope and `code` is not null. -/
def arguments_and_scope_slots (mem : Memory) (depth : Nat) (code : Obj) (frame : CallFrame) :
    List Slot :=
  (match frame.inline_method_p, frame.arguments with
    | false, some args => arguments_slots depth args
    | _, _ => []) ++
  (if frame.scope.isSome ∧ code ≠ NULL then
    scope_slots depth (mem.compiled_code code).machine_code.number_of_locals.toNat
   else [])

/-- The operand-stack slots of a frame whose compiled-code slot holds `code`: `stack_size`
of them when `code` is not null, none otherwise. -/
def stack_slots (mem : Memory) (depth : Nat) (code : Obj) : List Slot :=
  if code ≠ NULL then
    (List.range (mem.compiled_code code).stack_size.toNat).map
      (fun i => Slot.frame depth (FrameSlot.stk i))
  else []

/-- The per-frame list of `visit_objects`, for a visitor that rewrites by `g`: lexical
scope, compiled code, the operand-stack slots, top scope, block environment, the arguments
block, the scope block. The code the sizes are read from is the one the visitor left in the
compiled-code slot. -/
def visit_objects_slots (g : Slot → Obj → Obj) (mem : Memory) (depth : Nat)
    (frame : CallFrame) : List Slot :=
  [Slot.frame depth FrameSlot.lexical_scope_, Slot.frame depth FrameSlot.compiled_code] ++
    stack_slots mem depth (g (Slot.frame depth FrameSlot.compiled_code) frame.compiled_code) ++
    [Slot.frame depth FrameSlot.top_scope_, Slot.frame depth FrameSlot.block_env] ++
    arguments_and_scope_slots mem depth
      (g (Slot.frame depth FrameSlot.compiled_code) frame.compiled_code) frame

/-- The per-frame list of `trace_objects`, for a visitor that rewrites by `g`: return value,
lexical scope, compiled code, the operand-stack slots, the top scope when the frame has
multiple scopes and the slot is not null, the block environment when it is not null, the
arguments block, the scope block. -/
def trace_objects_slots (g : Slot → Obj → Obj) (mem : Memory) (depth : Nat)
    (frame : CallFrame) : List Slot :=
  [Slot.frame depth FrameSlot.return_value, Slot.frame depth FrameSlot.lexical_scope_,
      Slot.frame depth FrameSlot.compiled_code] ++
    stack_slots mem depth (g (Slot.frame depth FrameSlot.compiled_code) frame.compiled_code) ++
    (if frame.multiple_scopes_p = true ∧ frame.top_scope_ ≠ NULL then
      [Slot.frame depth FrameSlot.top_scope_] else []) ++
    (if frame.block_env ≠ NULL then [Slot.frame depth FrameSlot.block_env] else []) ++
    arguments_and_scope_slots mem depth
      (g (Slot.frame depth FrameSlot.compiled_code) frame.compiled_code) frame

/-- The concatenation of the per-frame lists `per` along a chain, top frame first, the
frame standing `k` steps below the first one being given depth `depth + k`. -/
def chain_slots (per : Nat → CallFrame → List Slot) : Nat → List CallFrame → List Slot
  | _, [] => []
  | depth, frame :: previous => per depth frame ++ chain_slots per (depth + 1) previous

/-- The context-level slots `trace_objects` presents before the frames. -/
def context_slots : List Slot :=
  [Slot.waiting_channel_, Slot.interrupted_exception_, Slot.thread_, Slot.fiber_,
    Slot.waiting_object_, Slot.unwind_state_]

/-- The test for an operand-stack slot of the frame at `depth`. -/
def Slot.is_stk_of (depth : Nat) : Slot → Bool
  | Slot.frame d (FrameSlot.stk _) => d == depth
  | _ => false

/-- The test for a local-variable slot of the frame at `depth`. -/
def Slot.is_local_of (depth : Nat) : Slot → Bool
  | Slot.frame d (FrameSlot.locals_ _) => d == depth
  | _ => false

/-- The number of releases of the lock `l` among the events. -/
def release_count (l : Lock) (events : List Event) : Nat :=
  events.count (Event.unlock l)

/-- Whether every release of the lock `l` among the events happens while `l` is held;
`held` tells whether the lock is held before the first event. -/
def releases_held (l : Lock) : Bool → List Event → Bool
  | _, [] => true
  | held, Event.lock l1 :: rest => releases_held l (held || decide (l1 = l)) rest
  | held, Event.unlock l1 :: rest =>
    (held || !decide (l1 = l)) && releases_held l (held && !decide (l1 = l)) rest
  | held, _ :: rest => releases_held l held rest

/-! ## What a rewriting visitor leaves in the slots -/

/-- The arguments after the arguments block ran with a visitor that rewrites by `g`. -/
def Arguments.rewritten (g : Slot → Obj → Obj) (depth : Nat) (args : Arguments) : Arguments where
  recv := g (Slot.frame depth FrameSlot.recv) args.recv
  block := g (Slot.frame depth FrameSlot.block) args.block
  argument_container :=
    if args.argument_container ≠ NULL then
      g (Slot.frame depth FrameSlot.argument_container) args.argument_container
    else args.argument_container
  arguments :=
    if args.argument_container ≠ NULL then args.arguments
    else fun i =>
      if i < args.total then g (Slot.frame depth (FrameSlot.arguments i)) (args.arguments i)
      else args.arguments i
  total := args.total

/-- The scope after the scope block ran over `locals` locals with a visitor that rewrites
by `g`. -/
def StackVariables.rewritten (g : Slot → Obj → Obj) (depth : Nat) (locals : Nat)
    (scope : StackVariables) : StackVariables where
  self_ := g (Slot.frame depth FrameSlot.self_) scope.self_
  block_ := g (Slot.frame depth FrameSlot.block_) scope.block_
  module_ := g (Slot.frame depth FrameSlot.module_) scope.module_
  locals_ := fun i =>
    if i < locals then g (Slot.frame depth (FrameSlot.locals_ i)) (scope.locals_ i)
    else scope.locals_ i
  last_match_ := g (Slot.frame depth FrameSlot.last_match_) scope.last_match_
  parent_ := g (Slot.frame depth FrameSlot.parent_) scope.parent_
  on_heap_ := g (Slot.frame depth FrameSlot.on_heap_) scope.on_heap_

/-- The frame after the lexical scope, the compiled code and the operand stack were
presented to a visitor that rewrites by `g`. -/
def CallFrame.code_and_stack_rewritten (g : Slot → Obj → Obj) (mem : Memory) (depth : Nat)
    (frame : CallFrame) : CallFrame :=
  { frame with
    lexical_scope_ := g (Slot.frame depth FrameSlot.lexical_scope_) frame.lexical_scope_
    compiled_code := g (Slot.frame depth FrameSlot.compiled_code) frame.compiled_code
    stk :=
      if g (Slot.frame depth FrameSlot.compiled_code) frame.compiled_code ≠ NULL then
        fun i =>
          if i < (mem.compiled_code
              (g (Slot.frame depth FrameSlot.compiled_code) frame.compiled_code)).stack_size.toNat
          then g (Slot.frame depth (FrameSlot.stk i)) (frame.stk i)
          else frame.stk i
      else frame.stk }

/-- The frame after the arguments block and the scope block ran with a visitor that
rewrites by `g`. -/
def CallFrame.arguments_and_scope_rewritten (g : Slot → Obj → Obj) (mem : Memory)
    (depth : Nat) (frame : CallFrame) : CallFrame :=
  { frame with
    arguments :=
      match frame.inline_method_p, frame.arguments with
      | false, some args => some (args.rewritten g depth)
      | _, args => args
    scope :=
      match frame.scope with
      | some scope =>
        if frame.compiled_code ≠ NULL then
          some (scope.rewritten g depth
            (mem.compiled_code frame.compiled_code).machine_code.number_of_locals.toNat)
        else some scope
      | none => none }

/-- The frame after the body of the loop of `visit_objects` ran on it with a visitor that
rewrites by `g`. -/
def CallFrame.visit_objects_rewritten (g : Slot → Obj → Obj) (mem : Memory) (depth : Nat)
    (frame : CallFrame) : CallFrame :=
  CallFrame.arguments_and_scope_rewritten g mem depth
    { CallFrame.code_and_stack_rewritten g mem depth frame with
      top_scope_ := g (Slot.frame depth FrameSlot.top_scope_) frame.top_scope_
      block_env := g (Slot.frame depth FrameSlot.block_env) frame.block_env }

/-- The frame after the body of the loop of `trace_objects` ran on it with a visitor that
rewrites by `g`. -/
def CallFrame.trace_objects_rewritten (g : Slot → Obj → Obj) (mem : Memory) (depth : Nat)
    (frame : CallFrame) : CallFrame :=
  CallFrame.arguments_and_scope_rewritten g mem depth
    { CallFrame.code_and_stack_rewritten g mem depth frame with
      return_value := g (Slot.frame depth FrameSlot.return_value) frame.return_value
      top_scope_ :=
        if frame.multiple_scopes_p = true ∧ frame.top_scope_ ≠ NULL then
          g (Slot.frame depth FrameSlot.top_scope_) frame.top_scope_
        else frame.top_scope_
      block_env :=
        if frame.block_env ≠ NULL then g (Slot.frame depth FrameSlot.block_env) frame.block_env
        else frame.block_env }

/-- The chain after a loop whose body leaves `after depth frame` in place of the frame at
`depth`. -/
def chain_rewritten (after : Nat → CallFrame → CallFrame) : Nat → List CallFrame → List CallFrame
  | _, [] => []
  | depth, frame :: previous => after depth frame :: chain_rewritten after (depth + 1) previous

/-! ## Sample values -/

/-- A heap in which every record is zero. -/
def Memory.zeroed : Memory where
  compiled_code := fun _ => { stack_size := 0, machine_code := { number_of_locals := 0 } }
  exception := fun _ => { locations := none }
  unwind_state := fun _ => { raise_reason := RaiseReason.cNone, current_exception := NULL }
  thread := fun _ => { current_fiber := NULL, sleep := false }
  fiber := fun _ => { root_p := false }

/-- The constructor `ThreadState::ThreadState(id, m, name)`: the initial value of every
member kept in the model, over the heap and the stack cushion of the machine `m`. -/
def ThreadState.new (id : Nat) (mem : Memory) (stack_cushion : Nat) : ThreadState where
  metrics_ := { checkpoints := 0, stops := 0 }
  os_thread_ := 0
  id_ := id
  memory := mem
  call_frame_ := []
  park_ := { parked_ := false }
  stack_cushion_ := stack_cushion
  interrupt_with_signal_ := false
  interrupt_by_kill_ := false
  check_local_interrupts_ := false
  thread_step_ := false
  zombie_ := false
  main_thread_ := false
  checkpoints_ := 0
  stops_ := 0
  waiting_channel_ := cNil
  interrupted_exception_ := cNil
  thread_ := cNil
  fiber_ := cNil
  waiting_object_ := cNil
  custom_wakeup_ := 0
  custom_wakeup_data_ := 0
  unwind_state_ := NULL

/-- A frame whose slots are all null, without arguments and without scope. -/
def CallFrame.blank : CallFrame where
  return_value := NULL
  lexical_scope_ := NULL
  compiled_code := NULL
  stk := fun _ => NULL
  top_scope_ := NULL
  block_env := NULL
  arguments := none
  scope := none
  inline_method_p := false
  multiple_scopes_p := false
  native_method_p := false
  is_inline_block := false
  ip := 0

/-- A heap in which every compiled code declares a stack size of 2 and 1 local. -/
def sample_code_memory : Memory :=
  { Memory.zeroed with
    compiled_code := fun _ => { stack_size := 2, machine_code := { number_of_locals := 1 } } }

/-- A scope with distinct words in its slots; local `i` holds `20 + i`. -/
def sample_scope : StackVariables where
  self_ := 11
  block_ := 12
  module_ := 13
  locals_ := fun i => 20 + i
  last_match_ := 14
  parent_ := 15
  on_heap_ := 16

/-- Two inline arguments, holding 40 and 41, with receiver 31 and block 32. -/
def sample_arguments : Arguments where
  recv := 31
  block := 32
  argument_container := NULL
  arguments := fun i => 40 + i
  total := 2

/-- A frame running the code stored at word 8, with a top-scope slot holding the word 6
(and not the multiple-scopes flag), a block environment, arguments and a scope. -/
def sample_frame : CallFrame :=
  { CallFrame.blank with
    compiled_code := 8
    top_scope_ := 6
    block_env := 5
    arguments := some sample_arguments
    scope := some sample_scope }

/-- A frame running the code stored at word 8 that has no scope. -/
def sample_frame_without_scope : CallFrame :=
  { CallFrame.blank with compiled_code := 8 }

/-- A frame that has a scope and a null compiled-code pointer. -/
def sample_frame_without_code : CallFrame :=
  { CallFrame.blank with scope := some sample_scope }

/-- A context whose chain is `sample_frame` on top of `sample_frame_without_scope`. -/
def sample_traced_context : ThreadState :=
  { ThreadState.new 1 sample_code_memory 0 with
    call_frame_ := [sample_frame, sample_frame_without_scope] }

/-- A context whose chain is the one frame `sample_frame_without_code`. -/
def sample_codeless_context : ThreadState :=
  { ThreadState.new 1 sample_code_memory 0 with call_frame_ := [sample_frame_without_code] }

/-- A newly constructed context over the zeroed heap. -/
def sample_context : ThreadState := ThreadState.new 1 Memory.zeroed 0

/-- An instruction body that reports success exactly when its literal is not zero and
touches neither the context nor the frame. -/
def sample_instruction : ThreadState → CallFrame → Int → Int → InstructionResult :=
  fun state call_frame literal _ =>
    { ok := literal != 0, state := state, call_frame := call_frame }

/-- A decoding of opcode cells in which the handler addressed by a cell returns the cell
plus the instruction pointer it is entered with. -/
def sample_call : Int → Instruction :=
  fun cell _ call_frame _ => cell + call_frame.ip

/-- The macro `argument(n)` read as the cell `n + 1` places after the instruction
pointer. -/
def sample_argument : (Int → Int) → CallFrame → Int → Int :=
  fun opcodes call_frame n => opcodes (call_frame.ip + n + 1)

/-- An instruction body of the shape of `instructions::n_iand`, with the registers read as
cells of `stk`: register `r0` receives the bitwise and of the registers `r1` and `r2`. -/
def sample_register_instruction : CallFrame → Int → Int → Int → CallFrame :=
  fun call_frame r0 r1 r2 =>
    { call_frame with
      stk := Function.update call_frame.stk r0.toNat
        (call_frame.stk r1.toNat &&& call_frame.stk r2.toNat) }

/-- A decoding of opcode cells with a bound on the handlers still to run: cell 2 addresses
`n_dge`, cell 3 addresses `n_dle`, both of width 4, and every other cell a handler that
leaves and returns the instruction pointer it is entered with. -/
def sample_dispatch : Nat → Int → Instruction
  | 0, _ => fun _ call_frame _ => call_frame.ip
  | n + 1, cell =>
    if cell = 2 then
      interpreter.n_dge sample_argument sample_register_instruction { width := 4 }
        (sample_dispatch n)
    else if cell = 3 then
      interpreter.n_dle sample_argument sample_register_instruction { width := 4 }
        (sample_dispatch n)
    else fun _ call_frame _ => call_frame.ip

/-- An opcode stream holding `n_ddiv` at 10, `n_dge` at 14, `n_dle` at 18 and a leaving
instruction at 22; every operand cell is 0. -/
def sample_opcodes : Int → Int :=
  fun i => if i = 10 then 1 else if i = 14 then 2 else if i = 18 then 3 else 0

/-- An object model in which the references are the non-zero multiples of 4, the fixnums
are the odd words, `FixnumType` is 1 and the object at word 8 has type 5. -/
def sample_object_model : ObjectModel where
  reference_p := fun o => o % 4 == 0 && o != 0
  fixnum_p := fun o => o % 2 == 1
  type_id := fun o => if o = 8 then 5 else 0
  to_string := fun _ => "a value"
  FixnumType := 1

/-- A context whose chain is, from the top: a native-method frame with a scope, an
inline-block frame with a scope, `sample_frame`, and `sample_frame_without_scope`. -/
def sample_variables_context : ThreadState :=
  { ThreadState.new 1 sample_code_memory 0 with
    call_frame_ :=
      [{ sample_frame with native_method_p := true, ip := 1 },
        { sample_frame with is_inline_block := true, ip := 2 },
        { sample_frame with ip := 3 },
        { sample_frame_without_scope with ip := 4 }] }

/-! ## Theorems -/

/-- C1: on a frame with instruction pointer `start_ip`, when the instruction body leaves
the instruction pointer alone, the handler `send_super_stack_with_splat` returns what the
handler stored at `opcodes[ip]` returns on the frame with that `ip`, where `ip` is
`start_ip + width + unwind width` when the body reports success and `start_ip + width`,
the first cell of the companion unwind instruction, when it reports failure. -/
theorem send_super_stack_with_splat_inline_unwind
    (argument : (Int → Int) → CallFrame → Int → Int)
    (instr : ThreadState → CallFrame → Int → Int → InstructionResult)
    (data_send_super_stack_with_splat data_unwind : InstructionData)
    (call : Int → Instruction)
    (state : ThreadState) (call_frame : CallFrame) (opcodes : Int → Int)
    (hip : (instr state call_frame (argument opcodes call_frame 0)
        (argument opcodes call_frame 1)).call_frame.ip = call_frame.ip) :
    ((instr state call_frame (argument opcodes call_frame 0)
        (argument opcodes call_frame 1)).ok = true →
      interpreter.send_super_stack_with_splat argument instr
          data_send_super_stack_with_splat data_unwind call state call_frame opcodes
        = call
            (opcodes (call_frame.ip + data_send_super_stack_with_splat.width
              + data_unwind.width))
            (instr state call_frame (argument opcodes call_frame 0)
              (argument opcodes call_frame 1)).state
            { (instr state call_frame (argument opcodes call_frame 0)
                (argument opcodes call_frame 1)).call_frame with
              ip := call_frame.ip + data_send_super_stack_with_splat.width
                + data_unwind.width }
            opcodes) ∧
    ((instr state call_frame (argument opcodes call_frame 0)
        (argument opcodes call_frame 1)).ok = false →
      interpreter.send_super_stack_with_splat argument instr
          data_send_super_stack_with_splat data_unwind call state call_frame opcodes
        = call
            (opcodes (call_frame.ip + data_send_super_stack_with_splat.width))
            (instr state call_frame (argument opcodes call_frame 0)
              (argument opcodes call_frame 1)).state
            { (instr state call_frame (argument opcodes call_frame 0)
                (argument opcodes call_frame 1)).call_frame with
              ip := call_frame.ip + data_send_super_stack_with_splat.width }
            opcodes) := by
  constructor
  · intro hok
    simp only [interpreter.send_super_stack_with_splat, hok, if_true, CallFrame.next_ip, hip,
      add_assoc]
  · intro hok
    simp only [interpreter.send_super_stack_with_splat, hok, CallFrame.next_ip, hip]
    simp

/-- C1 at a concrete frame: instruction pointer 10, widths 3 and 2, a body that succeeds. -/
theorem send_super_stack_with_splat_inline_unwind_witness :
    (sample_instruction sample_context { CallFrame.blank with ip := 10 } 7 7).call_frame.ip
        = 10 ∧
    interpreter.send_super_stack_with_splat (fun _ _ _ => 7) sample_instruction
        { width := 3 } { width := 2 } sample_call sample_context
        { CallFrame.blank with ip := 10 } (fun i => 100 * i) = 1515 :=
  ⟨rfl, by
    have h := (send_super_stack_with_splat_inline_unwind (fun _ _ _ => 7) sample_instruction
      { width := 3 } { width := 2 } sample_call sample_context
      { CallFrame.blank with ip := 10 } (fun i => 100 * i) rfl).1 rfl
    rw [h]
    decide⟩

/-- C2: the wake actions `wakeup` performs are those of the first applicable case in the
order parked (unpark), `interrupt_with_signal` (the signal), `waiting_object` not nil (no
action), `waiting_channel` not nil (nil sent on the channel), custom callback set (the
callback on its data), with no action when no case applies; and `wakeup` returns false
exactly when none of the five conditions holds. -/
theorem wakeup_first_applicable (ts : ThreadState) :
    ts.wakeup.events.filter Event.wake_action =
      (if ts.park_.parked_p = true then [Event.unpark]
       else if ts.interrupt_with_signal_ = true then
         [Event.pthread_kill ts.os_thread_ Signal.SIGVTALRM]
       else if nil_p ts.waiting_object_ = false then []
       else if nil_p ts.waiting_channel_ = false then
         [Event.channel_send ts.waiting_channel_ cNil]
       else if ts.custom_wakeup_ ≠ 0 then
         [Event.custom_wakeup ts.custom_wakeup_ ts.custom_wakeup_data_]
       else []) ∧
    (ts.wakeup.result = false ↔
      (ts.park_.parked_p = false ∧ ts.interrupt_with_signal_ = false ∧
        nil_p ts.waiting_object_ = true ∧ nil_p ts.waiting_channel_ = true ∧
        ts.custom_wakeup_ = 0)) := by
  unfold ThreadState.wakeup
  simp only [ThreadState.set_check_local_interrupts]
  by_cases h1 : ts.park_.parked_p = true
  · simp [h1, lock_guard, Event.wake_action]
  · by_cases h2 : ts.interrupt_with_signal_ = true
    · simp [h1, h2, lock_guard, Event.wake_action]
    · by_cases h3 : nil_p ts.waiting_object_ = true
      · by_cases h4 : nil_p ts.waiting_channel_ = true
        · by_cases h5 : ts.custom_wakeup_ = 0
          · simp [h1, h2, h3, h4, h5, lock_guard, Event.wake_action]
          · simp [h1, h2, h3, h4, h5, lock_guard, Event.wake_action]
        · simp [h1, h2, h3, h4, lock_guard, Event.wake_action]
      · simp [h1, h2, h3, lock_guard, Event.wake_action]

/-- C3, as stated, fails: in a context whose `interrupt_with_signal` flag is set, `wakeup`
after `wait_on_channel` on the non-nil channel 5 sends nothing on that channel. -/
theorem wakeup_after_wait_on_channel_counterexample :
    ¬ (∀ (ts : ThreadState) (chan : Obj), nil_p chan = false →
        (∃ value, Event.channel_send chan value ∈ (ts.wait_on_channel chan).state.wakeup.events)
          ∧ (ts.wait_on_channel chan).state.wakeup.result = true) := by
  intro h
  have h5 := (h { sample_context with interrupt_with_signal_ := true } 5 (by decide)).1
  obtain ⟨value, hv⟩ := h5
  revert hv
  simp [ThreadState.wakeup, ThreadState.wait_on_channel, sample_context, ThreadState.new,
    ThreadState.set_check_local_interrupts, Park.parked_p, lock_guard]

theorem wakeup_with_channel (ts : ThreadState) (hchan : nil_p ts.waiting_channel_ = false) :
    ts.wakeup.result = true ∧
    (ts.park_.parked_p = false → ts.interrupt_with_signal_ = false →
      nil_p ts.waiting_object_ = true →
      ts.wakeup.events.filter Event.wake_action
        = [Event.channel_send ts.waiting_channel_ cNil]) := by
  unfold ThreadState.wakeup
  simp only [ThreadState.set_check_local_interrupts]
  by_cases h1 : ts.park_.parked_p = true
  · simp [h1]
  · by_cases h2 : ts.interrupt_with_signal_ = true
    · simp [h1, h2]
    · by_cases h3 : nil_p ts.waiting_object_ = true
      · simp [h1, h2, h3, hchan, lock_guard, Event.wake_action]
      · simp [h1, h2, h3]

/-- C3, amended: `wakeup` after `wait_on_channel` on a non-nil channel returns true, and when
the context is not parked, its `interrupt_with_signal` flag is clear and its
`waiting_object` is nil, the one wake action of that `wakeup` is sending nil on the
channel. -/
theorem wakeup_after_wait_on_channel (ts : ThreadState) (chan : Obj)
    (hchan : nil_p chan = false) :
    (ts.wait_on_channel chan).state.wakeup.result = true ∧
    (ts.park_.parked_p = false → ts.interrupt_with_signal_ = false →
      nil_p ts.waiting_object_ = true →
      (ts.wait_on_channel chan).state.wakeup.events.filter Event.wake_action
        = [Event.channel_send chan cNil]) := by
  have hc : (ts.wait_on_channel chan).state.waiting_channel_ = chan := rfl
  have hw := wakeup_with_channel (ts.wait_on_channel chan).state (by rw [hc]; exact hchan)
  exact ⟨hw.1, fun hp hs hw0 => hw.2 hp hs hw0⟩

/-- C3, amended, at a concrete context: a new context waiting on channel 5. -/
theorem wakeup_after_wait_on_channel_witness :
    nil_p 5 = false ∧
    (sample_context.wait_on_channel 5).state.wakeup.result = true ∧
    (sample_context.wait_on_channel 5).state.wakeup.events.filter Event.wake_action
      = [Event.channel_send 5 cNil] :=
  ⟨by decide, (wakeup_after_wait_on_channel sample_context 5 (by decide)).1,
    (wakeup_after_wait_on_channel sample_context 5 (by decide)).2 rfl rfl rfl⟩

/-- C4: when a pending exception (not nil) and `interrupt_by_kill` are both set,
`check_thread_raise_or_kill` returns true, leaves the pending exception cleared and
`interrupt_by_kill` still set, and the unwind state of the context carries that exception
as a raised exception (not a thread-kill). -/
theorem check_thread_raise_or_kill_exception_before_kill
    (from_call_stack : ThreadState → List Location) (create : ThreadState → Obj)
    (yield_debugger : ThreadState → Obj → Obj × ThreadState) (state : ThreadState)
    (hexc : nil_p state.interrupted_exception_ = false)
    (hkill : state.interrupt_by_kill_ = true) :
    (state.check_thread_raise_or_kill from_call_stack create yield_debugger).1 = true ∧
    (state.check_thread_raise_or_kill from_call_stack create
        yield_debugger).2.interrupted_exception_ = cNil ∧
    (state.check_thread_raise_or_kill from_call_stack create
        yield_debugger).2.interrupt_by_kill_ = true ∧
    (state.check_thread_raise_or_kill from_call_stack create
        yield_debugger).2.memory.unwind_state
      (state.check_thread_raise_or_kill from_call_stack create
        yield_debugger).2.unwind_state_
      = { raise_reason := RaiseReason.cException,
          current_exception := state.interrupted_exception_ } := by
  unfold ThreadState.check_thread_raise_or_kill
  simp only [hexc, Bool.not_false, if_true, ThreadState.clear_interrupted_exception,
    ThreadState.unwind_state]
  split <;> split <;>
    simp [UnwindState.raise_exception, Exception.set_locations, hkill]

/-- C4 at a concrete context: exception 7 pending and a kill requested. -/
theorem check_thread_raise_or_kill_exception_before_kill_witness :
    nil_p 7 = false ∧
    (({ sample_context with interrupted_exception_ := 7, interrupt_by_kill_ := true }
        : ThreadState).check_thread_raise_or_kill
          (fun _ => [3]) (fun _ => 1) (fun st _ => (NULL, st))).2.interrupt_by_kill_ = true :=
  ⟨by decide,
    (check_thread_raise_or_kill_exception_before_kill (fun _ => [3]) (fun _ => 1)
      (fun st _ => (NULL, st))
      { sample_context with interrupted_exception_ := 7, interrupt_by_kill_ := true }
      (by decide) rfl).2.2.1⟩

/-- C5, as stated, fails: with no pending exception, a kill requested and a current fiber
that is not the root, the checkpoint leaves `interrupt_by_kill` set and raises a
thread-kill through the unwind state. -/
theorem check_thread_raise_or_kill_defer_counterexample :
    nil_p ({ sample_context with interrupt_by_kill_ := true }
      : ThreadState).interrupted_exception_ = true ∧
    (Memory.zeroed.fiber (Memory.zeroed.thread cNil).current_fiber).root_p = false ∧
    (({ sample_context with interrupt_by_kill_ := true } : ThreadState).check_thread_raise_or_kill
        (fun _ => []) (fun _ => 1) (fun st _ => (NULL, st))).2.interrupt_by_kill_ = true ∧
    ((({ sample_context with interrupt_by_kill_ := true }
        : ThreadState).check_thread_raise_or_kill
          (fun _ => []) (fun _ => 1) (fun st _ => (NULL, st))).2.memory.unwind_state
        1).raise_reason = RaiseReason.cThreadKill := by
  refine ⟨by decide, rfl, rfl, ?_⟩
  simp [ThreadState.check_thread_raise_or_kill, sample_context, ThreadState.new, nil_p,
    Memory.zeroed, ThreadState.set_check_local_interrupts, ThreadState.unwind_state,
    UnwindState.raise_thread_kill, NULL]

/-- C5, amended: with no pending exception and `interrupt_by_kill` set, the checkpoint
returns true and raises a thread-kill through the unwind state whether or not the current
fiber is the root; when it is the root the checkpoint clears `interrupt_by_kill` and leaves
`check_local_interrupts` as it was; when it is not the root the checkpoint sets
`check_local_interrupts` and leaves `interrupt_by_kill` set. -/
theorem check_thread_raise_or_kill_kill
    (from_call_stack : ThreadState → List Location) (create : ThreadState → Obj)
    (yield_debugger : ThreadState → Obj → Obj × ThreadState) (state : ThreadState)
    (hexc : nil_p state.interrupted_exception_ = true)
    (hkill : state.interrupt_by_kill_ = true) :
    (state.check_thread_raise_or_kill from_call_stack create yield_debugger).1 = true ∧
    ((state.check_thread_raise_or_kill from_call_stack create
        yield_debugger).2.memory.unwind_state
      (state.check_thread_raise_or_kill from_call_stack create
        yield_debugger).2.unwind_state_).raise_reason = RaiseReason.cThreadKill ∧
    ((state.memory.fiber (state.memory.thread state.thread_).current_fiber).root_p = true →
      (state.check_thread_raise_or_kill from_call_stack create
          yield_debugger).2.interrupt_by_kill_ = false ∧
      (state.check_thread_raise_or_kill from_call_stack create
          yield_debugger).2.check_local_interrupts_ = state.check_local_interrupts_) ∧
    ((state.memory.fiber (state.memory.thread state.thread_).current_fiber).root_p = false →
      (state.check_thread_raise_or_kill from_call_stack create
          yield_debugger).2.interrupt_by_kill_ = true ∧
      (state.check_thread_raise_or_kill from_call_stack create
          yield_debugger).2.check_local_interrupts_ = true) := by
  by_cases hnull : state.unwind_state_ = NULL <;>
    cases hroot : (state.memory.fiber (state.memory.thread state.thread_).current_fiber).root_p
    <;> simp [ThreadState.check_thread_raise_or_kill, hexc, hkill, hnull, hroot,
      ThreadState.unwind_state, ThreadState.clear_interrupt_by_kill,
      ThreadState.set_check_local_interrupts, UnwindState.raise_thread_kill]

/-- C5, amended, at a concrete context: a kill requested in a fiber that is not the root. -/
theorem check_thread_raise_or_kill_kill_witness :
    nil_p ({ sample_context with interrupt_by_kill_ := true }
      : ThreadState).interrupted_exception_ = true ∧
    (({ sample_context with interrupt_by_kill_ := true } : ThreadState).check_thread_raise_or_kill
        (fun _ => []) (fun _ => 1) (fun st _ => (NULL, st))).1 = true :=
  ⟨by decide,
    (check_thread_raise_or_kill_kill (fun _ => []) (fun _ => 1) (fun st _ => (NULL, st))
      { sample_context with interrupt_by_kill_ := true } (by decide) rfl).1⟩

/-! ## Lemmas on the tracer loops -/

theorem for_loop_succ {α : Type} (n : Nat) (body : Nat → α → α) (a : α) :
    for_loop (n + 1) body a = body n (for_loop n body a) := by
  simp [for_loop, List.range_succ, List.foldl_append]

theorem visit_array_eq {σ : Type} (g : Slot → Obj → Obj) (h : Slot → σ → σ)
    (slot : Nat → Slot) (n : Nat) (array : Nat → Obj) (s : σ) :
    visit_array (fun sl v st => (g sl v, h sl st)) slot n array s
      = (fun i => if i < n then g (slot i) (array i) else array i,
         ((List.range n).map slot).foldl (fun st sl => h sl st) s) := by
  unfold visit_array
  induction n with
  | zero => simp [for_loop]
  | succ n ih =>
    rw [for_loop_succ, ih]
    simp only [List.range_succ, List.map_append, List.foldl_append, List.map_cons, List.map_nil,
      List.foldl_cons, List.foldl_nil, lt_irrefl, if_false]
    congr 1
    funext i
    by_cases hi : i = n
    · subst hi; simp
    · rw [Function.update_noteq hi]
      by_cases hl : i < n
      · simp [hl, Nat.lt_succ_of_lt hl]
      · have : ¬ i < n + 1 := by omega
        simp [hl, this]

theorem visit_locals_eq {σ : Type} (g : Slot → Obj → Obj) (h : Slot → σ → σ)
    (depth n : Nat) (scope : StackVariables) (s : σ) :
    visit_locals (fun sl v st => (g sl v, h sl st)) depth n scope s
      = ({ scope with locals_ := fun i =>
            if i < n then g (Slot.frame depth (FrameSlot.locals_ i)) (scope.locals_ i)
            else scope.locals_ i },
         ((List.range n).map (fun i => Slot.frame depth (FrameSlot.locals_ i))).foldl
            (fun st sl => h sl st) s) := by
  unfold visit_locals
  induction n with
  | zero => simp [for_loop]
  | succ n ih =>
    rw [for_loop_succ, ih]
    simp only [List.range_succ, List.map_append, List.foldl_append, List.map_cons, List.map_nil,
      List.foldl_cons, List.foldl_nil, StackVariables.get_local, StackVariables.set_local,
      lt_irrefl, if_false]
    congr 2
    funext i
    by_cases hi : i = n
    · subst hi; simp
    · rw [Function.update_noteq hi]
      by_cases hl : i < n
      · simp [hl, Nat.lt_succ_of_lt hl]
      · have : ¬ i < n + 1 := by omega
        simp [hl, this]
theorem foldl_record (log l : List Slot) :
    l.foldl (fun st sl => st ++ [sl]) log = log ++ l := by
  induction l generalizing log with
  | nil => simp
  | cons a l ih => simp [ih]

theorem visit_arguments_eq {σ : Type} (g : Slot → Obj → Obj) (h : Slot → σ → σ)
    (depth : Nat) (args : Arguments) (s : σ) :
    visit_arguments (fun sl v st => (g sl v, h sl st)) depth args s
      = (args.rewritten g depth,
         (arguments_slots depth args).foldl (fun st sl => h sl st) s) := by
  obtain ⟨recv, blk, cont, ary, tot⟩ := args
  unfold visit_arguments arguments_slots Arguments.rewritten
  by_cases hk : cont = NULL <;>
    simp [hk, visit_array_eq, Arguments.set_recv, Arguments.set_block,
      Arguments.update_argument_container]

theorem visit_scope_eq {σ : Type} (g : Slot → Obj → Obj) (h : Slot → σ → σ)
    (depth : Nat) (locals : Int) (scope : StackVariables) (s : σ) :
    visit_scope (fun sl v st => (g sl v, h sl st)) depth locals scope s
      = (scope.rewritten g depth locals.toNat,
         (scope_slots depth locals.toNat).foldl (fun st sl => h sl st) s) := by
  obtain ⟨slf, blk, md, loc, lm, par, oh⟩ := scope
  unfold visit_scope scope_slots StackVariables.rewritten
  simp [visit_locals_eq, List.foldl_append]

theorem visit_code_and_stack_eq {σ : Type} (g : Slot → Obj → Obj) (h : Slot → σ → σ)
    (mem : Memory) (depth : Nat) (frame : CallFrame) (s : σ) :
    visit_code_and_stack (fun sl v st => (g sl v, h sl st)) mem depth frame s
      = (frame.code_and_stack_rewritten g mem depth,
         ([Slot.frame depth FrameSlot.lexical_scope_,
            Slot.frame depth FrameSlot.compiled_code] ++
          stack_slots mem depth
            (g (Slot.frame depth FrameSlot.compiled_code) frame.compiled_code)).foldl
          (fun st sl => h sl st) s) := by
  obtain ⟨rv, ls, cc, stk, tsc, be, args, sc, inl, ms, nm, ib, ip⟩ := frame
  unfold visit_code_and_stack stack_slots CallFrame.code_and_stack_rewritten
  by_cases hc : g (Slot.frame depth FrameSlot.compiled_code) cc = NULL <;>
    simp [hc, visit_array_eq]

theorem visit_arguments_and_scope_eq {σ : Type} (g : Slot → Obj → Obj) (h : Slot → σ → σ)
    (mem : Memory) (depth : Nat) (frame : CallFrame) (s : σ) :
    visit_arguments_and_scope (fun sl v st => (g sl v, h sl st)) mem depth frame s
      = (frame.arguments_and_scope_rewritten g mem depth,
         (arguments_and_scope_slots mem depth frame.compiled_code frame).foldl
          (fun st sl => h sl st) s) := by
  obtain ⟨rv, ls, cc, stk, tsc, be, args, sc, inl, ms, nm, ib, ip⟩ := frame
  unfold visit_arguments_and_scope arguments_and_scope_slots
    CallFrame.arguments_and_scope_rewritten
  cases inl <;> cases args <;> cases sc <;> by_cases hc : cc = NULL <;>
    simp [hc, visit_arguments_eq, visit_scope_eq, List.foldl_append]

theorem visit_objects_frame_eq {σ : Type} (g : Slot → Obj → Obj) (h : Slot → σ → σ)
    (mem : Memory) (depth : Nat) (frame : CallFrame) (s : σ) :
    visit_objects_frame (fun sl v st => (g sl v, h sl st)) mem depth frame s
      = (frame.visit_objects_rewritten g mem depth,
         (visit_objects_slots g mem depth frame).foldl (fun st sl => h sl st) s) := by
  unfold visit_objects_frame visit_objects_slots CallFrame.visit_objects_rewritten
  rw [visit_code_and_stack_eq]
  simp only [CallFrame.set_block_env, visit_arguments_and_scope_eq, List.foldl_append]
  obtain ⟨rv, ls, cc, stk, tsc, be, args, sc, inl, ms, nm, ib, ip⟩ := frame
  simp [CallFrame.code_and_stack_rewritten, List.foldl_append, arguments_and_scope_slots]

theorem visit_chain_eq {σ : Type} (body : Nat → CallFrame → σ → CallFrame × σ)
    (after : Nat → CallFrame → CallFrame) (per : Nat → CallFrame → List Slot)
    (h : Slot → σ → σ)
    (hbody : ∀ depth frame s,
      body depth frame s = (after depth frame, (per depth frame).foldl (fun st sl => h sl st) s))
    (depth : Nat) (frames : List CallFrame) (s : σ) :
    visit_chain body depth frames s
      = (chain_rewritten after depth frames,
         (chain_slots per depth frames).foldl (fun st sl => h sl st) s) := by
  induction frames generalizing depth s with
  | nil => simp [visit_chain, chain_rewritten, chain_slots]
  | cons frame previous ih =>
    simp [visit_chain, chain_rewritten, chain_slots, hbody, ih, List.foldl_append]

theorem visit_objects_eq {σ : Type} (g : Slot → Obj → Obj) (h : Slot → σ → σ)
    (ts : ThreadState) (s : σ) :
    ts.visit_objects (fun sl v st => (g sl v, h sl st)) s
      = ({ ts with call_frame_ :=
            chain_rewritten (CallFrame.visit_objects_rewritten g ts.memory) 0 ts.call_frame_ },
         (chain_slots (visit_objects_slots g ts.memory) 0 ts.call_frame_).foldl
            (fun st sl => h sl st) s) := by
  unfold ThreadState.visit_objects
  rw [visit_chain_eq _ _ _ h (visit_objects_frame_eq g h ts.memory)]

theorem visit_objects_presented_eq (g : Slot → Obj → Obj) (ts : ThreadState) :
    ts.visit_objects_presented g
      = chain_slots (visit_objects_slots g ts.memory) 0 ts.call_frame_ := by
  unfold ThreadState.visit_objects_presented recording
  rw [visit_objects_eq g (fun sl (st : List Slot) => st ++ [sl]), foldl_record]
  simp

theorem trace_objects_frame_eq {σ : Type} (g : Slot → Obj → Obj) (h : Slot → σ → σ)
    (mem : Memory) (depth : Nat) (frame : CallFrame) (s : σ) :
    trace_objects_frame (fun sl v st => (g sl v, h sl st)) mem depth frame s
      = (frame.trace_objects_rewritten g mem depth,
         (trace_objects_slots g mem depth frame).foldl (fun st sl => h sl st) s) := by
  unfold trace_objects_frame trace_objects_slots CallFrame.trace_objects_rewritten
  simp only [visit_code_and_stack_eq]
  obtain ⟨rv, ls, cc, stk, tsc, be, args, sc, inl, ms, nm, ib, ip⟩ := frame
  cases ms <;> by_cases ht : tsc = NULL <;> by_cases hb : be = NULL <;>
    simp [ht, hb, CallFrame.code_and_stack_rewritten, CallFrame.set_block_env,
      visit_arguments_and_scope_eq, List.foldl_append, arguments_and_scope_slots,
      CallFrame.arguments_and_scope_rewritten]

theorem trace_objects_presented_eq (g : Slot → Obj → Obj) (ts : ThreadState) :
    ts.trace_objects_presented g
      = context_slots ++ chain_slots (trace_objects_slots g ts.memory) 0 ts.call_frame_ := by
  unfold ThreadState.trace_objects_presented ThreadState.trace_objects recording
  simp only []
  rw [visit_chain_eq _ _ _ (fun sl (st : List Slot) => st ++ [sl])
    (trace_objects_frame_eq g (fun sl (st : List Slot) => st ++ [sl]) ts.memory)]
  simp [foldl_record, context_slots]

theorem stack_slots_depth (mem : Memory) (k : Nat) (code : Obj) (sl : Slot)
    (hsl : sl ∈ stack_slots mem k code) : ∃ fs, sl = Slot.frame k fs := by
  unfold stack_slots at hsl
  split at hsl
  · simp only [List.mem_map] at hsl
    obtain ⟨i, _, rfl⟩ := hsl
    exact ⟨_, rfl⟩
  · simp at hsl

theorem arguments_and_scope_slots_depth (mem : Memory) (k : Nat) (code : Obj)
    (frame : CallFrame) (sl : Slot)
    (hsl : sl ∈ arguments_and_scope_slots mem k code frame) : ∃ fs, sl = Slot.frame k fs := by
  obtain ⟨rv, ls, cc, stk, tsc, be, args, sc, inl, ms, nm, ib, ip⟩ := frame
  unfold arguments_and_scope_slots at hsl
  rw [List.mem_append] at hsl
  rcases hsl with hsl | hsl
  · cases inl <;> cases args <;> simp only [List.not_mem_nil] at hsl
    unfold arguments_slots at hsl
    rw [List.mem_append] at hsl
    rcases hsl with hsl | hsl
    · simp only [List.mem_cons, List.mem_singleton, List.not_mem_nil, or_false] at hsl
      rcases hsl with rfl | rfl <;> exact ⟨_, rfl⟩
    · split at hsl
      · simp only [List.mem_singleton] at hsl
        exact ⟨_, hsl⟩
      · simp only [List.mem_map] at hsl
        obtain ⟨i, _, rfl⟩ := hsl
        exact ⟨_, rfl⟩
  · split at hsl
    · unfold scope_slots at hsl
      simp only [List.mem_append, List.mem_cons, List.mem_singleton, List.not_mem_nil,
        or_false, List.mem_map] at hsl
      rcases hsl with ((rfl | rfl | rfl) | ⟨i, _, rfl⟩) | (rfl | rfl | rfl) <;>
        exact ⟨_, rfl⟩
    · simp at hsl

theorem visit_objects_slots_depth (g : Slot → Obj → Obj) (mem : Memory) (k : Nat)
    (frame : CallFrame) (sl : Slot) (hsl : sl ∈ visit_objects_slots g mem k frame) :
    ∃ fs, sl = Slot.frame k fs := by
  unfold visit_objects_slots at hsl
  simp only [List.mem_append, List.mem_cons, List.mem_singleton, List.not_mem_nil,
    or_false] at hsl
  rcases hsl with (((rfl | rfl) | hsl) | (rfl | rfl)) | hsl
  · exact ⟨_, rfl⟩
  · exact ⟨_, rfl⟩
  · exact stack_slots_depth _ _ _ _ hsl
  · exact ⟨_, rfl⟩
  · exact ⟨_, rfl⟩
  · exact arguments_and_scope_slots_depth _ _ _ _ _ hsl

theorem trace_objects_slots_depth (g : Slot → Obj → Obj) (mem : Memory) (k : Nat)
    (frame : CallFrame) (sl : Slot) (hsl : sl ∈ trace_objects_slots g mem k frame) :
    ∃ fs, sl = Slot.frame k fs := by
  unfold trace_objects_slots at hsl
  simp only [List.mem_append, List.mem_cons, List.mem_singleton, List.not_mem_nil,
    or_false] at hsl
  rcases hsl with ((((rfl | rfl | rfl) | hsl) | hsl) | hsl) | hsl
  · exact ⟨_, rfl⟩
  · exact ⟨_, rfl⟩
  · exact ⟨_, rfl⟩
  · exact stack_slots_depth _ _ _ _ hsl
  · split at hsl
    · simp only [List.mem_singleton] at hsl; exact ⟨_, hsl⟩
    · simp at hsl
  · split at hsl
    · simp only [List.mem_singleton] at hsl; exact ⟨_, hsl⟩
    · simp at hsl
  · exact arguments_and_scope_slots_depth _ _ _ _ _ hsl

theorem mem_chain_slots (per : Nat → CallFrame → List Slot) (sl : Slot) :
    ∀ (frames : List CallFrame) (base : Nat),
      (sl ∈ chain_slots per base frames ↔
        ∃ i frame, frames[i]? = some frame ∧ sl ∈ per (base + i) frame) := by
  intro frames
  induction frames with
  | nil => intro base; simp [chain_slots]
  | cons fr rest ih =>
    intro base
    simp only [chain_slots, List.mem_append, ih]
    constructor
    · rintro (h | ⟨i, frame, hi, hm⟩)
      · exact ⟨0, fr, by simp, by simpa using h⟩
      · exact ⟨i + 1, frame, by simpa using hi, by
          have : base + 1 + i = base + (i + 1) := by omega
          rw [← this]; exact hm⟩
    · rintro ⟨i, frame, hi, hm⟩
      cases i with
      | zero =>
        simp only [List.getElem?_cons_zero, Option.some.injEq] at hi
        subst hi
        exact Or.inl (by simpa using hm)
      | succ j =>
        refine Or.inr ⟨j, frame, by simpa using hi, ?_⟩
        have : base + 1 + j = base + (j + 1) := by omega
        rw [this]; exact hm

theorem filter_chain_slots_above (per : Nat → CallFrame → List Slot) (p : Slot → Bool)
    (d : Nat) (hper : ∀ k frame sl, sl ∈ per k frame → k ≠ d → p sl = false) :
    ∀ (frames : List CallFrame) (base : Nat), d < base →
      (chain_slots per base frames).filter p = [] := by
  intro frames base hbase
  rw [List.filter_eq_nil_iff]
  intro sl hsl
  rw [mem_chain_slots] at hsl
  obtain ⟨i, frame, _, hm⟩ := hsl
  simp [hper _ _ _ hm (by omega)]

theorem filter_chain_slots (per : Nat → CallFrame → List Slot) (p : Slot → Bool)
    (d : Nat) (hper : ∀ k frame sl, sl ∈ per k frame → k ≠ d → p sl = false) :
    ∀ (frames : List CallFrame) (base i : Nat) (frame : CallFrame),
      frames[i]? = some frame → base + i = d →
      (chain_slots per base frames).filter p = (per d frame).filter p := by
  intro frames
  induction frames with
  | nil => intro base i frame hi; simp at hi
  | cons fr rest ih =>
    intro base i frame hi hd
    cases i with
    | zero =>
      simp only [List.getElem?_cons_zero, Option.some.injEq] at hi
      subst hi
      have hb : base = d := by omega
      subst hb
      simp [chain_slots, List.filter_append,
        filter_chain_slots_above per p base hper rest (base + 1) (by omega)]
    | succ j =>
      have hnil : (per base fr).filter p = [] := by
        rw [List.filter_eq_nil_iff]
        intro sl hsl
        simp [hper _ _ _ hsl (by omega)]
      simp only [chain_slots, List.filter_append, hnil, List.nil_append]
      exact ih (base + 1) j frame (by simpa using hi) (by omega)

theorem filter_stk_stack_slots (mem : Memory) (d : Nat) (code : Obj) :
    (stack_slots mem d code).filter (Slot.is_stk_of d) = stack_slots mem d code := by
  rw [List.filter_eq_self]
  intro sl hsl
  unfold stack_slots at hsl
  split at hsl
  · simp only [List.mem_map] at hsl
    obtain ⟨i, _, rfl⟩ := hsl
    simp [Slot.is_stk_of]
  · simp at hsl

theorem filter_local_stack_slots (mem : Memory) (d : Nat) (code : Obj) :
    (stack_slots mem d code).filter (Slot.is_local_of d) = [] := by
  rw [List.filter_eq_nil_iff]
  intro sl hsl
  unfold stack_slots at hsl
  split at hsl
  · simp only [List.mem_map] at hsl
    obtain ⟨i, _, rfl⟩ := hsl
    simp [Slot.is_local_of]
  · simp at hsl

theorem filter_stk_arguments_and_scope_slots (mem : Memory) (d : Nat) (code : Obj)
    (frame : CallFrame) :
    (arguments_and_scope_slots mem d code frame).filter (Slot.is_stk_of d) = [] := by
  rw [List.filter_eq_nil_iff]
  intro sl hsl
  obtain ⟨rv, ls, cc, stk, tsc, be, args, sc, inl, ms, nm, ib, ip⟩ := frame
  unfold arguments_and_scope_slots at hsl
  rw [List.mem_append] at hsl
  rcases hsl with hsl | hsl
  · cases inl <;> cases args <;> simp only [List.not_mem_nil] at hsl
    unfold arguments_slots at hsl
    rw [List.mem_append] at hsl
    rcases hsl with hsl | hsl
    · simp only [List.mem_cons, List.mem_singleton, List.not_mem_nil, or_false] at hsl
      rcases hsl with rfl | rfl <;> simp [Slot.is_stk_of]
    · split at hsl
      · simp only [List.mem_singleton] at hsl
        subst hsl; simp [Slot.is_stk_of]
      · simp only [List.mem_map] at hsl
        obtain ⟨i, _, rfl⟩ := hsl
        simp [Slot.is_stk_of]
  · split at hsl
    · unfold scope_slots at hsl
      simp only [List.mem_append, List.mem_cons, List.mem_singleton, List.not_mem_nil,
        or_false, List.mem_map] at hsl
      rcases hsl with ((rfl | rfl | rfl) | ⟨i, _, rfl⟩) | (rfl | rfl | rfl) <;>
        simp [Slot.is_stk_of]
    · simp at hsl

theorem filter_local_scope_slots (d n : Nat) :
    (scope_slots d n).filter (Slot.is_local_of d)
      = (List.range n).map (fun i => Slot.frame d (FrameSlot.locals_ i)) := by
  unfold scope_slots
  have hmid : ((List.range n).map (fun i => Slot.frame d (FrameSlot.locals_ i))).filter
      (Slot.is_local_of d) = (List.range n).map (fun i => Slot.frame d (FrameSlot.locals_ i)) := by
    rw [List.filter_eq_self]
    intro sl hsl
    simp only [List.mem_map] at hsl
    obtain ⟨i, _, rfl⟩ := hsl
    simp [Slot.is_local_of]
  simp [List.filter_append, hmid, Slot.is_local_of]

theorem filter_local_arguments_slots (d : Nat) (args : Arguments) :
    (arguments_slots d args).filter (Slot.is_local_of d) = [] := by
  rw [List.filter_eq_nil_iff]
  intro sl hsl
  unfold arguments_slots at hsl
  rw [List.mem_append] at hsl
  rcases hsl with hsl | hsl
  · simp only [List.mem_cons, List.mem_singleton, List.not_mem_nil, or_false] at hsl
    rcases hsl with rfl | rfl <;> simp [Slot.is_local_of]
  · split at hsl
    · simp only [List.mem_singleton] at hsl
      subst hsl; simp [Slot.is_local_of]
    · simp only [List.mem_map] at hsl
      obtain ⟨i, _, rfl⟩ := hsl
      simp [Slot.is_local_of]

theorem filter_local_arguments_and_scope_slots (mem : Memory) (d : Nat) (code : Obj)
    (frame : CallFrame) (hcode : code ≠ NULL) :
    (arguments_and_scope_slots mem d code frame).filter (Slot.is_local_of d)
      = if frame.scope.isSome then
          (List.range (mem.compiled_code code).machine_code.number_of_locals.toNat).map
            (fun i => Slot.frame d (FrameSlot.locals_ i))
        else [] := by
  obtain ⟨rv, ls, cc, stk, tsc, be, args, sc, inl, ms, nm, ib, ip⟩ := frame
  unfold arguments_and_scope_slots
  rw [List.filter_append]
  have hargs : (match inl, args with
      | false, some args => arguments_slots d args
      | _, _ => []).filter (Slot.is_local_of d) = [] := by
    cases inl <;> cases args <;> simp [filter_local_arguments_slots]
  simp only [hargs, List.nil_append]
  cases sc <;> simp [hcode, filter_local_scope_slots]

theorem filter_stk_visit_objects_slots (g : Slot → Obj → Obj) (mem : Memory) (d : Nat)
    (frame : CallFrame) :
    (visit_objects_slots g mem d frame).filter (Slot.is_stk_of d)
      = stack_slots mem d (g (Slot.frame d FrameSlot.compiled_code) frame.compiled_code) := by
  unfold visit_objects_slots
  simp [List.filter_append, filter_stk_stack_slots, filter_stk_arguments_and_scope_slots,
    Slot.is_stk_of]

theorem filter_stk_trace_objects_slots (g : Slot → Obj → Obj) (mem : Memory) (d : Nat)
    (frame : CallFrame) :
    (trace_objects_slots g mem d frame).filter (Slot.is_stk_of d)
      = stack_slots mem d (g (Slot.frame d FrameSlot.compiled_code) frame.compiled_code) := by
  unfold trace_objects_slots
  have h1 : (if frame.multiple_scopes_p = true ∧ frame.top_scope_ ≠ NULL then
      [Slot.frame d FrameSlot.top_scope_] else []).filter (Slot.is_stk_of d) = [] := by
    split <;> simp [Slot.is_stk_of]
  have h2 : (if frame.block_env ≠ NULL then [Slot.frame d FrameSlot.block_env]
      else []).filter (Slot.is_stk_of d) = [] := by
    split <;> simp [Slot.is_stk_of]
  simp [List.filter_append, filter_stk_stack_slots, filter_stk_arguments_and_scope_slots,
    Slot.is_stk_of, h1, h2]

theorem filter_local_visit_objects_slots (g : Slot → Obj → Obj) (mem : Memory) (d : Nat)
    (frame : CallFrame)
    (hcode : g (Slot.frame d FrameSlot.compiled_code) frame.compiled_code ≠ NULL) :
    (visit_objects_slots g mem d frame).filter (Slot.is_local_of d)
      = if frame.scope.isSome then
          (List.range (mem.compiled_code
              (g (Slot.frame d FrameSlot.compiled_code)
                frame.compiled_code)).machine_code.number_of_locals.toNat).map
            (fun i => Slot.frame d (FrameSlot.locals_ i))
        else [] := by
  unfold visit_objects_slots
  simp [List.filter_append, filter_local_stack_slots,
    filter_local_arguments_and_scope_slots _ _ _ _ hcode, Slot.is_local_of]

theorem filter_local_trace_objects_slots (g : Slot → Obj → Obj) (mem : Memory) (d : Nat)
    (frame : CallFrame)
    (hcode : g (Slot.frame d FrameSlot.compiled_code) frame.compiled_code ≠ NULL) :
    (trace_objects_slots g mem d frame).filter (Slot.is_local_of d)
      = if frame.scope.isSome then
          (List.range (mem.compiled_code
              (g (Slot.frame d FrameSlot.compiled_code)
                frame.compiled_code)).machine_code.number_of_locals.toNat).map
            (fun i => Slot.frame d (FrameSlot.locals_ i))
        else [] := by
  unfold trace_objects_slots
  have h1 : (if frame.multiple_scopes_p = true ∧ frame.top_scope_ ≠ NULL then
      [Slot.frame d FrameSlot.top_scope_] else []).filter (Slot.is_local_of d) = [] := by
    split <;> simp [Slot.is_local_of]
  have h2 : (if frame.block_env ≠ NULL then [Slot.frame d FrameSlot.block_env]
      else []).filter (Slot.is_local_of d) = [] := by
    split <;> simp [Slot.is_local_of]
  simp [List.filter_append, filter_local_stack_slots,
    filter_local_arguments_and_scope_slots _ _ _ _ hcode, Slot.is_local_of, h1, h2]

/-! ## Root tracing: claims -/

/-- C6, as stated, fails: the frame at depth 1 of the sample context runs code that
declares 1 local and has no scope; both tracers present its 2 operand-stack slots and none
of its local-variable slots. -/
theorem tracers_present_locals_counterexample :
    (sample_traced_context.memory.compiled_code
      sample_frame_without_scope.compiled_code).machine_code.number_of_locals = 1 ∧
    (sample_traced_context.visit_objects_presented (fun _ v => v)).filter (Slot.is_stk_of 1)
      = [Slot.frame 1 (FrameSlot.stk 0), Slot.frame 1 (FrameSlot.stk 1)] ∧
    (sample_traced_context.visit_objects_presented (fun _ v => v)).filter
      (Slot.is_local_of 1) = [] ∧
    (sample_traced_context.trace_objects_presented (fun _ v => v)).filter
      (Slot.is_local_of 1) = [] := by
  decide

/-- C6, amended: for the frame at `depth` of a context's chain, whose compiled-code slot,
once the visitor was applied to it, is not null and refers to code declaring stack size `S`
and locals count `L`, the operand-stack slots that `visit_objects` and `trace_objects`
present are `stk[0..S-1]`, each once and in order, whatever the slots hold, and the
local-variable slots they present are locals `0..L-1`, each once and in order, when the
frame has a scope, and none when it has no scope. -/
theorem tracers_present_stack_and_locals (g : Slot → Obj → Obj) (ts : ThreadState)
    (depth : Nat) (frame : CallFrame) (S L : Int)
    (hframe : ts.call_frame_[depth]? = some frame)
    (hcode : g (Slot.frame depth FrameSlot.compiled_code) frame.compiled_code ≠ NULL)
    (hS : (ts.memory.compiled_code
      (g (Slot.frame depth FrameSlot.compiled_code) frame.compiled_code)).stack_size = S)
    (hL : (ts.memory.compiled_code
      (g (Slot.frame depth FrameSlot.compiled_code)
        frame.compiled_code)).machine_code.number_of_locals = L) :
    (ts.visit_objects_presented g).filter (Slot.is_stk_of depth)
      = (List.range S.toNat).map (fun i => Slot.frame depth (FrameSlot.stk i)) ∧
    (ts.trace_objects_presented g).filter (Slot.is_stk_of depth)
      = (List.range S.toNat).map (fun i => Slot.frame depth (FrameSlot.stk i)) ∧
    (ts.visit_objects_presented g).filter (Slot.is_local_of depth)
      = (if frame.scope.isSome then
          (List.range L.toNat).map (fun i => Slot.frame depth (FrameSlot.locals_ i))
        else []) ∧
    (ts.trace_objects_presented g).filter (Slot.is_local_of depth)
      = (if frame.scope.isSome then
          (List.range L.toNat).map (fun i => Slot.frame depth (FrameSlot.locals_ i))
        else []) := by
  have hstk : ∀ k sl, (∃ fs, sl = Slot.frame k fs) → k ≠ depth →
      Slot.is_stk_of depth sl = false := by
    rintro k sl ⟨fs, rfl⟩ hk
    cases fs <;> simp [Slot.is_stk_of, hk]
  have hloc : ∀ k sl, (∃ fs, sl = Slot.frame k fs) → k ≠ depth →
      Slot.is_local_of depth sl = false := by
    rintro k sl ⟨fs, rfl⟩ hk
    cases fs <;> simp [Slot.is_local_of, hk]
  have hctx_stk : context_slots.filter (Slot.is_stk_of depth) = [] := by
    simp [context_slots, Slot.is_stk_of]
  have hctx_loc : context_slots.filter (Slot.is_local_of depth) = [] := by
    simp [context_slots, Slot.is_local_of]
  rw [visit_objects_presented_eq, trace_objects_presented_eq]
  simp only [List.filter_append, hctx_stk, hctx_loc, List.nil_append]
  rw [filter_chain_slots _ (Slot.is_stk_of depth) depth
      (fun k fr sl hsl hk => hstk k sl (visit_objects_slots_depth g _ k fr sl hsl) hk)
      ts.call_frame_ 0 depth frame hframe (by omega),
    filter_chain_slots _ (Slot.is_stk_of depth) depth
      (fun k fr sl hsl hk => hstk k sl (trace_objects_slots_depth g _ k fr sl hsl) hk)
      ts.call_frame_ 0 depth frame hframe (by omega),
    filter_chain_slots _ (Slot.is_local_of depth) depth
      (fun k fr sl hsl hk => hloc k sl (visit_objects_slots_depth g _ k fr sl hsl) hk)
      ts.call_frame_ 0 depth frame hframe (by omega),
    filter_chain_slots _ (Slot.is_local_of depth) depth
      (fun k fr sl hsl hk => hloc k sl (trace_objects_slots_depth g _ k fr sl hsl) hk)
      ts.call_frame_ 0 depth frame hframe (by omega),
    filter_stk_visit_objects_slots, filter_stk_trace_objects_slots,
    filter_local_visit_objects_slots g _ _ _ hcode,
    filter_local_trace_objects_slots g _ _ _ hcode]
  simp only [stack_slots, hcode, ne_eq, not_false_eq_true, if_true, hS, hL, and_self]

/-- C6, amended, at the top frame of the sample context, which has a scope and runs code
declaring stack size 2 and 1 local. -/
theorem tracers_present_stack_and_locals_witness :
    sample_traced_context.call_frame_[0]? = some sample_frame ∧
    (sample_traced_context.visit_objects_presented (fun _ v => v)).filter (Slot.is_stk_of 0)
      = [Slot.frame 0 (FrameSlot.stk 0), Slot.frame 0 (FrameSlot.stk 1)] ∧
    (sample_traced_context.trace_objects_presented (fun _ v => v)).filter
      (Slot.is_local_of 0) = [Slot.frame 0 (FrameSlot.locals_ 0)] :=
  ⟨rfl,
    (tracers_present_stack_and_locals (fun _ v => v) sample_traced_context 0 sample_frame 2 1
      rfl (by decide) rfl rfl).1,
    (tracers_present_stack_and_locals (fun _ v => v) sample_traced_context 0 sample_frame 2 1
      rfl (by decide) rfl rfl).2.2.2⟩

/-- C7, as stated, fails: the one frame of the sample context has a scope and a null
compiled-code pointer, and `visit_objects` presents four slots of it, none of them a slot
of the scope. -/
theorem visit_objects_sequence_counterexample :
    sample_codeless_context.call_frame_.map (fun frame => frame.scope.isSome) = [true] ∧
    sample_codeless_context.visit_objects_presented (fun _ v => v)
      = [Slot.frame 0 FrameSlot.lexical_scope_, Slot.frame 0 FrameSlot.compiled_code,
          Slot.frame 0 FrameSlot.top_scope_, Slot.frame 0 FrameSlot.block_env] := by
  decide

/-- C7, amended: the sequence of slots `visit_objects` presents is the concatenation, along
the chain from the top frame on and with each frame occurring once, of the per-frame list
`visit_objects_slots`: lexical scope, compiled code, the operand-stack slots (when the
compiled-code pointer is not null), top scope, block environment, then (if the frame is not
an inline frame and has arguments) receiver, block and either the packed argument container
or every inline argument slot, then (if the frame has a scope and its compiled-code pointer
is not null) self, enclosing block, module, every local, last_match, parent and on_heap; for
an empty chain the visitor is never called. -/
theorem visit_objects_sequence (g : Slot → Obj → Obj) (ts : ThreadState) :
    ts.visit_objects_presented g
        = chain_slots (visit_objects_slots g ts.memory) 0 ts.call_frame_ ∧
    (ts.call_frame_ = [] → ts.visit_objects_presented g = []) := by
  refine ⟨visit_objects_presented_eq g ts, ?_⟩
  intro hnil
  rw [visit_objects_presented_eq, hnil]
  rfl

theorem getElem?_chain_rewritten (after : Nat → CallFrame → CallFrame) :
    ∀ (frames : List CallFrame) (base i : Nat),
      (chain_rewritten after base frames)[i]? = (frames[i]?).map (after (base + i)) := by
  intro frames
  induction frames with
  | nil => intro base i; simp [chain_rewritten]
  | cons fr rest ih =>
    intro base i
    cases i with
    | zero => simp [chain_rewritten]
    | succ j =>
      simp only [chain_rewritten, List.getElem?_cons_succ, ih]
      have : base + 1 + j = base + (j + 1) := by omega
      rw [this]

theorem foldl_keep {σ : Type} (l : List Slot) (s : σ) :
    l.foldl (fun st _ => st) s = s := by
  induction l with
  | nil => rfl
  | cons a l ih => simp [ih]

theorem visit_objects_relocating (g : Obj → Obj) (ts : ThreadState) :
    ts.visit_objects (relocating g) ()
      = ({ ts with
            call_frame_ :=
              chain_rewritten (CallFrame.visit_objects_rewritten (fun _ => g) ts.memory) 0
                ts.call_frame_ }, ()) := by
  have h := visit_objects_eq (fun _ => g) (fun _ (st : Unit) => st) ts ()
  rw [foldl_keep] at h
  exact h

/-- C8: after `visit_objects` ran with a visitor that replaces the content `v` of every slot
it is given by `g v`, the frame at each depth has its block environment replaced by `g` of
the old one; when its arguments are traced (not an inline frame, arguments present) the
receiver and the block are replaced by `g` of the old ones, and so is the packed argument
container when there is one, and otherwise every inline argument below `total`; when its
scope is traced (scope present, compiled-code pointer not null) local `i` is replaced by `g`
of the old local `i` for every `i` below the locals count of the code; and what the tracer
did not present is unchanged: the return value, the arguments of a frame whose arguments
are not traced, the inline arguments when there is a container and those from `total` on,
the scope of a frame whose scope is not traced, the locals from the locals count on, the
operand-stack slots from the stack size on (all of them under a null compiled-code pointer),
and the context-level slots. -/
theorem visit_objects_writes_back (g : Obj → Obj) (ts : ThreadState) (depth : Nat)
    (frame : CallFrame) (hframe : ts.call_frame_[depth]? = some frame) :
    ∃ after : CallFrame,
      (ts.visit_objects (relocating g) ()).1.call_frame_[depth]? = some after ∧
      after.block_env = g frame.block_env ∧
      after.compiled_code = g frame.compiled_code ∧
      (∀ args, frame.inline_method_p = false → frame.arguments = some args →
        ∃ args1, after.arguments = some args1 ∧
          args1.recv = g args.recv ∧ args1.block = g args.block ∧
          args1.total = args.total ∧
          (args.argument_container ≠ NULL →
            args1.argument_container = g args.argument_container ∧
            args1.arguments = args.arguments) ∧
          (args.argument_container = NULL →
            args1.argument_container = NULL ∧
            ∀ i, args1.arguments i
              = if i < args.total then g (args.arguments i) else args.arguments i)) ∧
      (∀ scope, frame.scope = some scope → g frame.compiled_code ≠ NULL →
        ∃ scope1, after.scope = some scope1 ∧
          ∀ i, scope1.locals_ i
            = if i < (ts.memory.compiled_code
                (g frame.compiled_code)).machine_code.number_of_locals.toNat
              then g (scope.locals_ i) else scope.locals_ i) ∧
      (∀ i, after.stk i
        = if g frame.compiled_code ≠ NULL ∧
              i < (ts.memory.compiled_code (g frame.compiled_code)).stack_size.toNat
          then g (frame.stk i) else frame.stk i) ∧
      after.return_value = frame.return_value ∧
      ((frame.inline_method_p = true ∨ frame.arguments = none) →
        after.arguments = frame.arguments) ∧
      ((frame.scope = none ∨ g frame.compiled_code = NULL) → after.scope = frame.scope) ∧
      (ts.visit_objects (relocating g) ()).1.waiting_channel_ = ts.waiting_channel_ ∧
      (ts.visit_objects (relocating g) ()).1.interrupted_exception_
        = ts.interrupted_exception_ ∧
      (ts.visit_objects (relocating g) ()).1.thread_ = ts.thread_ ∧
      (ts.visit_objects (relocating g) ()).1.fiber_ = ts.fiber_ ∧
      (ts.visit_objects (relocating g) ()).1.waiting_object_ = ts.waiting_object_ ∧
      (ts.visit_objects (relocating g) ()).1.unwind_state_ = ts.unwind_state_ := by
  refine ⟨frame.visit_objects_rewritten (fun _ => g) ts.memory depth, ?_⟩
  rw [visit_objects_relocating]
  refine ⟨?_, ?_, ?_, ?_, ?_, ?_, ?_, ?_, ?_, rfl, rfl, rfl, rfl, rfl, rfl⟩
  · simp [getElem?_chain_rewritten, hframe]
  · rfl
  · rfl
  · intro args hinl hargs
    refine ⟨args.rewritten (fun _ => g) depth, ?_, rfl, rfl, rfl, ?_, ?_⟩
    · simp [CallFrame.visit_objects_rewritten, CallFrame.arguments_and_scope_rewritten,
        CallFrame.code_and_stack_rewritten, hinl, hargs]
    · intro hk
      simp [Arguments.rewritten, hk]
    · intro hk
      simp [Arguments.rewritten, hk]
  · intro scope hscope hcode
    refine ⟨scope.rewritten (fun _ => g) depth
      (ts.memory.compiled_code (g frame.compiled_code)).machine_code.number_of_locals.toNat,
      ?_, fun i => rfl⟩
    simp [CallFrame.visit_objects_rewritten, CallFrame.arguments_and_scope_rewritten,
      CallFrame.code_and_stack_rewritten, hscope, hcode]
  · intro i
    by_cases hcode : g frame.compiled_code = NULL <;>
      simp [CallFrame.visit_objects_rewritten, CallFrame.arguments_and_scope_rewritten,
        CallFrame.code_and_stack_rewritten, hcode]
  · rfl
  · rintro (hinl | hargs)
    · simp [CallFrame.visit_objects_rewritten, CallFrame.arguments_and_scope_rewritten,
        CallFrame.code_and_stack_rewritten, hinl]
    · simp [CallFrame.visit_objects_rewritten, CallFrame.arguments_and_scope_rewritten,
        CallFrame.code_and_stack_rewritten, hargs]
  · rintro (hscope | hcode)
    · simp [CallFrame.visit_objects_rewritten, CallFrame.arguments_and_scope_rewritten,
        CallFrame.code_and_stack_rewritten, hscope]
    · simp only [CallFrame.visit_objects_rewritten, CallFrame.arguments_and_scope_rewritten,
        CallFrame.code_and_stack_rewritten, hcode]
      cases frame.scope <;> simp

/-- C8 at the top frame of the sample context, for the visitor that adds 1000 to every
word: the block environment 5 becomes 1005, the receiver 31 becomes 1031, local 0 becomes
1020 and local 1, which is not below the locals count, stays 21. -/
theorem visit_objects_writes_back_witness :
    sample_traced_context.call_frame_[0]? = some sample_frame ∧
    ((sample_traced_context.visit_objects (relocating (fun v => v + 1000)) ()).1.call_frame_.map
      (fun frame => (frame.block_env, frame.arguments.map (fun args => args.recv),
        frame.scope.map (fun scope => (scope.locals_ 0, scope.locals_ 1))))).head?
      = some (1005, some 1031, some (1020, 21)) ∧
    (∃ after : CallFrame,
      (sample_traced_context.visit_objects (relocating (fun v => v + 1000)) ()).1.call_frame_[0]?
        = some after ∧ after.block_env = 1005) :=
  ⟨rfl, by decide,
    (visit_objects_writes_back (fun v => v + 1000) sample_traced_context 0 sample_frame
      rfl).imp (fun _ h => ⟨h.1, h.2.1⟩)⟩

theorem top_scope_not_mem_stack_slots (mem : Memory) (d k : Nat) (code : Obj) :
    Slot.frame d FrameSlot.top_scope_ ∉ stack_slots mem k code ∧
    Slot.frame d FrameSlot.block_env ∉ stack_slots mem k code := by
  unfold stack_slots
  split <;> simp

theorem top_scope_not_mem_arguments_and_scope_slots (mem : Memory) (d k : Nat) (code : Obj)
    (frame : CallFrame) :
    Slot.frame d FrameSlot.top_scope_ ∉ arguments_and_scope_slots mem k code frame ∧
    Slot.frame d FrameSlot.block_env ∉ arguments_and_scope_slots mem k code frame := by
  obtain ⟨rv, ls, cc, stk, tsc, be, args, sc, inl, ms, nm, ib, ip⟩ := frame
  unfold arguments_and_scope_slots
  cases inl <;> cases args <;> cases sc <;> by_cases hc : code = NULL <;>
    simp [hc, arguments_slots, scope_slots] <;> split <;> simp

theorem top_scope_mem_trace_objects_slots (g : Slot → Obj → Obj) (mem : Memory) (d k : Nat)
    (frame : CallFrame) :
    Slot.frame d FrameSlot.top_scope_ ∈ trace_objects_slots g mem k frame ↔
      (d = k ∧ frame.multiple_scopes_p = true ∧ frame.top_scope_ ≠ NULL) := by
  unfold trace_objects_slots
  simp only [List.mem_append, (top_scope_not_mem_stack_slots mem d k _).1,
    (top_scope_not_mem_arguments_and_scope_slots mem d k _ frame).1, or_false]
  by_cases h1 : frame.multiple_scopes_p = true ∧ frame.top_scope_ ≠ NULL <;>
    by_cases h2 : frame.block_env ≠ NULL <;> simp [h1, h2]

theorem block_env_mem_trace_objects_slots (g : Slot → Obj → Obj) (mem : Memory) (d k : Nat)
    (frame : CallFrame) :
    Slot.frame d FrameSlot.block_env ∈ trace_objects_slots g mem k frame ↔
      (d = k ∧ frame.block_env ≠ NULL) := by
  unfold trace_objects_slots
  simp only [List.mem_append, (top_scope_not_mem_stack_slots mem d k _).2,
    (top_scope_not_mem_arguments_and_scope_slots mem d k _ frame).2, or_false]
  by_cases h1 : frame.multiple_scopes_p = true ∧ frame.top_scope_ ≠ NULL <;>
    by_cases h2 : frame.block_env ≠ NULL <;> simp [h1, h2]

theorem visit_objects_slots_subset (g : Slot → Obj → Obj) (mem : Memory) (k : Nat)
    (frame : CallFrame) (sl : Slot) (hsl : sl ∈ visit_objects_slots g mem k frame)
    (htop : sl ≠ Slot.frame k FrameSlot.top_scope_)
    (hbe : sl ≠ Slot.frame k FrameSlot.block_env) :
    sl ∈ trace_objects_slots g mem k frame := by
  unfold visit_objects_slots at hsl
  unfold trace_objects_slots
  simp only [List.mem_append, List.mem_cons, List.mem_singleton, List.not_mem_nil,
    or_false] at hsl ⊢
  rcases hsl with (((h | h) | h) | (h | h)) | h
  · exact Or.inl (Or.inl (Or.inl (Or.inl (Or.inr (Or.inl h)))))
  · exact Or.inl (Or.inl (Or.inl (Or.inl (Or.inr (Or.inr h)))))
  · exact Or.inl (Or.inl (Or.inl (Or.inr h)))
  · exact absurd h htop
  · exact absurd h hbe
  · exact Or.inr h

/-- C9, as stated, fails: the top frame of the sample context does not have multiple scopes,
and its top-scope slot, which holds the word 6, is presented by `visit_objects` and not by
`trace_objects`. -/
theorem trace_objects_covers_visit_objects_counterexample :
    sample_traced_context.call_frame_.map
      (fun frame => (frame.top_scope_, frame.multiple_scopes_p)) = [(6, false), (0, false)] ∧
    Slot.frame 0 FrameSlot.top_scope_
      ∈ sample_traced_context.visit_objects_presented (fun _ v => v) ∧
    Slot.frame 0 FrameSlot.top_scope_
      ∉ sample_traced_context.trace_objects_presented (fun _ v => v) := by
  decide

/-- C9, amended: `trace_objects` presents every slot that `visit_objects` presents for the
same context other than top-scope and block-environment slots; it presents the top-scope
slot of a frame exactly when the frame has multiple scopes and the slot is not null, and
the block-environment slot of a frame exactly when that slot is not null, whereas
`visit_objects` presents both for every frame; and it presents the context-level slots
waiting_channel, interrupted_exception, thread, fiber and waiting_object. -/
theorem trace_objects_covers_visit_objects (g : Slot → Obj → Obj) (ts : ThreadState) :
    (∀ slot, slot ∈ ts.visit_objects_presented g →
      (∀ d, slot ≠ Slot.frame d FrameSlot.top_scope_) →
      (∀ d, slot ≠ Slot.frame d FrameSlot.block_env) →
      slot ∈ ts.trace_objects_presented g) ∧
    (∀ d, Slot.frame d FrameSlot.top_scope_ ∈ ts.trace_objects_presented g ↔
      ∃ frame, ts.call_frame_[d]? = some frame ∧ frame.multiple_scopes_p = true ∧
        frame.top_scope_ ≠ NULL) ∧
    (∀ d, Slot.frame d FrameSlot.block_env ∈ ts.trace_objects_presented g ↔
      ∃ frame, ts.call_frame_[d]? = some frame ∧ frame.block_env ≠ NULL) ∧
    (∀ d frame, ts.call_frame_[d]? = some frame →
      Slot.frame d FrameSlot.top_scope_ ∈ ts.visit_objects_presented g ∧
      Slot.frame d FrameSlot.block_env ∈ ts.visit_objects_presented g) ∧
    Slot.waiting_channel_ ∈ ts.trace_objects_presented g ∧
    Slot.interrupted_exception_ ∈ ts.trace_objects_presented g ∧
    Slot.thread_ ∈ ts.trace_objects_presented g ∧
    Slot.fiber_ ∈ ts.trace_objects_presented g ∧
    Slot.waiting_object_ ∈ ts.trace_objects_presented g := by
  rw [visit_objects_presented_eq, trace_objects_presented_eq]
  refine ⟨?_, ?_, ?_, ?_, ?_, ?_, ?_, ?_, ?_⟩
  · intro slot hslot htop hbe
    rw [mem_chain_slots] at hslot
    obtain ⟨i, frame, hi, hm⟩ := hslot
    rw [List.mem_append, mem_chain_slots]
    exact Or.inr ⟨i, frame, hi,
      visit_objects_slots_subset g _ _ frame slot hm (htop _) (hbe _)⟩
  · intro d
    rw [List.mem_append, mem_chain_slots]
    constructor
    · rintro (h | ⟨i, frame, hi, hm⟩)
      · simp [context_slots] at h
      · rw [top_scope_mem_trace_objects_slots] at hm
        obtain ⟨hd, hms, htop⟩ := hm
        simp only [Nat.zero_add] at hd
        subst hd
        exact ⟨frame, hi, hms, htop⟩
    · rintro ⟨frame, hi, hms, htop⟩
      exact Or.inr ⟨d, frame, hi, by
        rw [top_scope_mem_trace_objects_slots]
        exact ⟨by simp, hms, htop⟩⟩
  · intro d
    rw [List.mem_append, mem_chain_slots]
    constructor
    · rintro (h | ⟨i, frame, hi, hm⟩)
      · simp [context_slots] at h
      · rw [block_env_mem_trace_objects_slots] at hm
        obtain ⟨hd, hbe⟩ := hm
        simp only [Nat.zero_add] at hd
        subst hd
        exact ⟨frame, hi, hbe⟩
    · rintro ⟨frame, hi, hbe⟩
      exact Or.inr ⟨d, frame, hi, by
        rw [block_env_mem_trace_objects_slots]
        exact ⟨by simp, hbe⟩⟩
  · intro d frame hi
    constructor
    · rw [mem_chain_slots]
      exact ⟨d, frame, hi, by simp [visit_objects_slots]⟩
    · rw [mem_chain_slots]
      exact ⟨d, frame, hi, by simp [visit_objects_slots]⟩
  all_goals simp [context_slots]

/-- C9, amended, at the sample context: the receiver slot of the top frame, which
`visit_objects` presents, is presented by `trace_objects`. -/
theorem trace_objects_covers_visit_objects_witness :
    Slot.frame 0 FrameSlot.recv
      ∈ sample_traced_context.visit_objects_presented (fun _ v => v) ∧
    Slot.frame 0 FrameSlot.recv
      ∈ sample_traced_context.trace_objects_presented (fun _ v => v) :=
  ⟨by decide,
    (trace_objects_covers_visit_objects (fun _ v => v) sample_traced_context).1
      (Slot.frame 0 FrameSlot.recv) (by decide) (by intro d; simp) (by intro d; simp)⟩

/-! ## Lock discipline -/

/-- C10, as stated, fails: `clear_waiter` writes `interrupt_with_signal`, `waiting_channel`,
`waiting_object` and the custom wakeup members without holding the interrupt lock (it
takes the wait lock of the memory manager), and so does `wait_on_custom_function`. -/
theorem writes_under_interrupt_lock_counterexample :
    guarded_by Lock.interrupt_lock_ Event.is_write false sample_context.clear_waiter.events
      = false ∧
    guarded_by Lock.interrupt_lock_ Event.is_write false
      (sample_context.wait_on_custom_function 3 9).events = false ∧
    Event.lock Lock.interrupt_lock_ ∉ sample_context.clear_waiter.events ∧
    Event.write Field.waiting_channel_ ∈ sample_context.clear_waiter.events := by
  decide

/-- C10, amended: `wait_on_channel`, `register_raise` and `register_kill` perform every
write of a member while holding the interrupt lock of the context, and `wakeup` performs
its write and its reads of `waiting_object`, `interrupt_with_signal` and `waiting_channel`
while holding that lock, so recording a channel wait and the check `wakeup` makes of it are
serialised by it; `clear_waiter` and `wait_on_custom_function` perform their writes while
holding the wait lock of the memory manager and never take the interrupt lock. -/
theorem writes_under_locks (ts : ThreadState) (chan exc : Obj) (func data : Nat) :
    guarded_by Lock.interrupt_lock_ Event.is_write false (ts.wait_on_channel chan).events
      = true ∧
    guarded_by Lock.interrupt_lock_ Event.is_write false (ts.register_raise exc).events
      = true ∧
    guarded_by Lock.interrupt_lock_ Event.is_write false ts.register_kill.events = true ∧
    guarded_by Lock.interrupt_lock_
      (fun e => Event.is_write e || decide (e = Event.read Field.waiting_object_)
        || decide (e = Event.read Field.interrupt_with_signal_)
        || decide (e = Event.read Field.waiting_channel_))
      false ts.wakeup.events = true ∧
    guarded_by Lock.wait_lock Event.is_write false ts.clear_waiter.events = true ∧
    guarded_by Lock.wait_lock Event.is_write false
      (ts.wait_on_custom_function func data).events = true ∧
    Event.lock Lock.interrupt_lock_ ∉ ts.clear_waiter.events ∧
    Event.lock Lock.interrupt_lock_ ∉ (ts.wait_on_custom_function func data).events := by
  refine ⟨rfl, rfl, rfl, ?_, rfl, rfl, ?_, ?_⟩
  · unfold ThreadState.wakeup
    simp only [ThreadState.set_check_local_interrupts]
    split
    · rfl
    · split
      · rfl
      · split
        · rfl
        · split
          · rfl
          · split <;> rfl
  · simp [ThreadState.clear_waiter, lock_guard]
  · simp [ThreadState.wait_on_custom_function, lock_guard]

/-! ## Lifecycle, frame chain and checkpoint: claims -/

/-- C11, as stated, fails: a new context that waits on channel 5 with the custom callback 3
on data 9 and with `interrupt_with_signal` set still has all of them after `set_zombie`. -/
theorem set_zombie_counterexample :
    ({ sample_context with
        waiting_channel_ := 5, waiting_object_ := 6, custom_wakeup_ := 3,
        custom_wakeup_data_ := 9, interrupt_with_signal_ := true } : ThreadState).set_zombie.zombie_
      = true ∧
    ({ sample_context with
        waiting_channel_ := 5, waiting_object_ := 6, custom_wakeup_ := 3,
        custom_wakeup_data_ := 9, interrupt_with_signal_ := true }
        : ThreadState).set_zombie.waiting_channel_ = 5 ∧
    nil_p 5 = false ∧
    ({ sample_context with
        waiting_channel_ := 5, waiting_object_ := 6, custom_wakeup_ := 3,
        custom_wakeup_data_ := 9, interrupt_with_signal_ := true }
        : ThreadState).set_zombie.custom_wakeup_ = 3 ∧
    ({ sample_context with
        waiting_channel_ := 5, waiting_object_ := 6, custom_wakeup_ := 3,
        custom_wakeup_data_ := 9, interrupt_with_signal_ := true }
        : ThreadState).set_zombie.interrupt_with_signal_ = true := by
  decide

/-- C11, amended: after `set_zombie` the zombie flag is set and the thread and fiber
bindings are nil, and the blocking-state fields (`waiting_channel`, `waiting_object`, the
custom wakeup callback and its data, `interrupt_with_signal`) are as they were before; the
overload that takes the state does the same to the context the thread nexus leaves. -/
theorem set_zombie_effect (delete_vm : ThreadState → ThreadState) (ts : ThreadState) :
    ts.set_zombie.zombie_ = true ∧
    ts.set_zombie.thread_ = cNil ∧
    ts.set_zombie.fiber_ = cNil ∧
    ts.set_zombie.waiting_channel_ = ts.waiting_channel_ ∧
    ts.set_zombie.waiting_object_ = ts.waiting_object_ ∧
    ts.set_zombie.custom_wakeup_ = ts.custom_wakeup_ ∧
    ts.set_zombie.custom_wakeup_data_ = ts.custom_wakeup_data_ ∧
    ts.set_zombie.interrupt_with_signal_ = ts.interrupt_with_signal_ ∧
    ts.set_zombie_STATE delete_vm = (delete_vm ts).set_zombie ∧
    (ts.set_zombie_STATE delete_vm).zombie_ = true ∧
    (ts.set_zombie_STATE delete_vm).thread_ = cNil ∧
    (ts.set_zombie_STATE delete_vm).fiber_ = cNil :=
  ⟨rfl, rfl, rfl, rfl, rfl, rfl, rfl, rfl, rfl, rfl, rfl, rfl⟩

theorem walk_previous_eq_drop (frames : List CallFrame) (up : Int) :
    walk_previous frames up = frames.drop up.toNat := by
  induction frames generalizing up with
  | nil => simp [walk_previous]
  | cons frame previous ih =>
    unfold walk_previous
    by_cases h : up > 0
    · have hup : up.toNat = (up - 1).toNat + 1 := by omega
      rw [if_pos h, ih, hup, List.drop_succ_cons]
    · have hup : up.toNat = 0 := by omega
      rw [if_neg h, hup, List.drop_zero]

theorem iterate_tail_eq_drop (n : Nat) (frames : List CallFrame) :
    List.tail^[n] frames = frames.drop n := by
  induction n generalizing frames with
  | zero => simp
  | succ n ih =>
    rw [Function.iterate_succ_apply, ih]
    cases frames <;> simp

/-- C12: for a context whose frame chain has N frames, `get_call_frame(up)` returns the top
frame for `up <= 0`, the frame reached by following `previous` exactly `up` times (the
frame at depth `up`, not null) for `0 < up < N`, and null for every `up >= N`; following
`previous` from the top frame reaches a frame for each of the depths below N and null at
depth N, so the walk visits exactly N frames, and the chain that `set_previous_frame`
links has N + 1. -/
theorem get_call_frame_walk (ts : ThreadState) (up : Int) (frame : CallFrame) :
    (up ≤ 0 → ts.get_call_frame up = ts.call_frame_) ∧
    (0 < up → up < ts.call_frame_.length →
      ts.get_call_frame up = List.tail^[up.toNat] ts.call_frame_ ∧
      ts.get_call_frame up ≠ [] ∧
      (ts.get_call_frame up).head? = ts.call_frame_[up.toNat]?) ∧
    ((ts.call_frame_.length : Int) ≤ up → ts.get_call_frame up = []) ∧
    (∀ depth : Nat, depth < ts.call_frame_.length → ts.get_call_frame depth ≠ []) ∧
    ts.get_call_frame ts.call_frame_.length = [] ∧
    (ts.set_previous_frame frame).length = ts.call_frame_.length + 1 := by
  unfold ThreadState.get_call_frame ThreadState.set_previous_frame
  simp only [walk_previous_eq_drop]
  refine ⟨?_, ?_, ?_, ?_, ?_, ?_⟩
  · intro h
    have : up.toNat = 0 := by omega
    rw [this, List.drop_zero]
  · intro h0 hN
    have hlt : up.toNat < ts.call_frame_.length := by omega
    refine ⟨(iterate_tail_eq_drop _ _).symm, ?_, ?_⟩
    · intro hnil
      have := congrArg List.length hnil
      simp at this
      omega
    · simp [List.head?_drop]
  · intro h
    apply List.drop_eq_nil_of_le
    omega
  · intro depth hd hnil
    have := congrArg List.length hnil
    simp at this
    omega
  · simp
  · simp

/-- C12 at the sample context, whose chain has 2 frames: depth 1 is the frame without
scope and depth 2 is null. -/
theorem get_call_frame_walk_witness :
    (0 : Int) < 1 ∧ (1 : Int) < sample_traced_context.call_frame_.length ∧
    (sample_traced_context.get_call_frame 1).map (fun frame => frame.compiled_code) = [8] ∧
    sample_traced_context.get_call_frame 1 ≠ [] ∧
    sample_traced_context.get_call_frame 2 = [] :=
  ⟨by decide, by decide, by decide,
    ((get_call_frame_walk sample_traced_context 1 CallFrame.blank).2.1 (by decide)
      (by decide)).2.1,
    (get_call_frame_walk sample_traced_context 2 CallFrame.blank).2.2.1 (by decide)⟩

/-- C14: `register_kill` applied twice leaves the same context as `register_kill` applied
once; `clear_waiter` leaves a context unchanged when its `interrupt_with_signal` is clear,
its `waiting_channel` and `waiting_object` are nil and its custom wakeup callback and data
are null; and `clear_waiter` applied twice leaves the same context as applied once. -/
theorem interrupt_flags_idempotent (ts : ThreadState) :
    ts.register_kill.state.register_kill.state = ts.register_kill.state ∧
    (ts.interrupt_with_signal_ = false → ts.waiting_channel_ = cNil →
      ts.waiting_object_ = cNil → ts.custom_wakeup_ = 0 → ts.custom_wakeup_data_ = 0 →
      ts.clear_waiter.state = ts) ∧
    ts.clear_waiter.state.clear_waiter.state = ts.clear_waiter.state := by
  refine ⟨rfl, ?_, rfl⟩
  intro h1 h2 h3 h4 h5
  obtain ⟨m, os, id, mem, cf, pk, sc, iws, ibk, cli, step, zo, mt, cp, st, wc, ie, th, fb, wo,
    cw, cwd, us⟩ := ts
  simp only at h1 h2 h3 h4 h5
  subst h1 h2 h3 h4 h5
  rfl

/-- C14 at a new context, whose blocking-state fields are clear. -/
theorem interrupt_flags_idempotent_witness :
    sample_context.interrupt_with_signal_ = false ∧ sample_context.waiting_channel_ = cNil ∧
    sample_context.clear_waiter.state = sample_context :=
  ⟨rfl, rfl, (interrupt_flags_idempotent sample_context).2.1 rfl rfl rfl rfl rfl⟩

/-- C18: `validate_stack_size(size)` raises the runtime error "requested stack size is
invalid" exactly when `size` is strictly smaller than the stack cushion of the context, and
accepts every size greater than or equal to the cushion, the cushion itself included. -/
theorem validate_stack_size_cushion (ts : ThreadState) (size : Nat) :
    (ts.validate_stack_size size = Except.error "requested stack size is invalid" ↔
      size < ts.stack_cushion_) ∧
    (ts.validate_stack_size size = Except.ok () ↔ ts.stack_cushion_ ≤ size) ∧
    ts.validate_stack_size ts.stack_cushion_ = Except.ok () := by
  unfold ThreadState.validate_stack_size
  refine ⟨?_, ?_, ?_⟩
  · by_cases h : ts.stack_cushion_ > size
    · simp [h]
    · simp [h]
  · by_cases h : ts.stack_cushion_ > size
    · simp [h]
    · simp [h]
      omega
  · simp

theorem check_thread_raise_or_kill_first_branch
    (from_call_stack : ThreadState → List Location) (create : ThreadState → Obj)
    (yield_debugger : ThreadState → Obj → Obj × ThreadState) (state : ThreadState)
    (hexc : nil_p state.interrupted_exception_ = false) :
    (state.check_thread_raise_or_kill from_call_stack create yield_debugger).1 = true ∧
    (state.check_thread_raise_or_kill from_call_stack create
        yield_debugger).2.interrupted_exception_ = cNil ∧
    (state.check_thread_raise_or_kill from_call_stack create
        yield_debugger).2.memory.unwind_state
      (state.check_thread_raise_or_kill from_call_stack create
        yield_debugger).2.unwind_state_
      = { raise_reason := RaiseReason.cException,
          current_exception := state.interrupted_exception_ } ∧
    (state.check_thread_raise_or_kill from_call_stack create
        yield_debugger).2.interrupt_by_kill_ = state.interrupt_by_kill_ ∧
    (state.check_thread_raise_or_kill from_call_stack create
        yield_debugger).2.thread_step_ = state.thread_step_ := by
  unfold ThreadState.check_thread_raise_or_kill
  simp only [hexc, Bool.not_false, if_true, ThreadState.clear_interrupted_exception,
    ThreadState.unwind_state]
  split <;> split <;>
    simp [UnwindState.raise_exception, Exception.set_locations]

theorem check_thread_raise_or_kill_kill_branch
    (from_call_stack : ThreadState → List Location) (create : ThreadState → Obj)
    (yield_debugger : ThreadState → Obj → Obj × ThreadState) (state : ThreadState)
    (hexc : nil_p state.interrupted_exception_ = true)
    (hkill : state.interrupt_by_kill_ = true) :
    (state.check_thread_raise_or_kill from_call_stack create yield_debugger).1 = true ∧
    ((state.check_thread_raise_or_kill from_call_stack create
        yield_debugger).2.memory.unwind_state
      (state.check_thread_raise_or_kill from_call_stack create
        yield_debugger).2.unwind_state_).raise_reason = RaiseReason.cThreadKill := by
  by_cases hnull : state.unwind_state_ = NULL <;>
    cases hroot : (state.memory.fiber (state.memory.thread state.thread_).current_fiber).root_p
    <;> simp [ThreadState.check_thread_raise_or_kill, hexc, hkill, hnull, hroot,
      ThreadState.unwind_state, ThreadState.clear_interrupt_by_kill,
      ThreadState.set_check_local_interrupts, UnwindState.raise_thread_kill]

/-- C13: after `register_raise(exc)` with `exc` not nil, the next
`check_thread_raise_or_kill` returns true, leaves `interrupted_exception` nil and leaves
the unwind state carrying `exc` as the raised exception; a second checkpoint then returns
false and changes nothing when neither a kill nor a step is requested, and raises a
thread-kill, not `exc`, when a kill is requested. -/
theorem register_raise_then_checkpoint
    (from_call_stack : ThreadState → List Location) (create : ThreadState → Obj)
    (yield_debugger : ThreadState → Obj → Obj × ThreadState) (ts : ThreadState) (exc : Obj)
    (hexc : nil_p exc = false) :
    let first :=
      (ts.register_raise exc).state.check_thread_raise_or_kill from_call_stack create
        yield_debugger
    let second := first.2.check_thread_raise_or_kill from_call_stack create yield_debugger
    first.1 = true ∧
    first.2.interrupted_exception_ = cNil ∧
    first.2.memory.unwind_state first.2.unwind_state_
      = { raise_reason := RaiseReason.cException, current_exception := exc } ∧
    (ts.interrupt_by_kill_ = false → ts.thread_step_ = false → second = (false, first.2)) ∧
    (ts.interrupt_by_kill_ = true →
      second.1 = true ∧
      (second.2.memory.unwind_state second.2.unwind_state_).raise_reason
        = RaiseReason.cThreadKill) := by
  intro first second
  have hfirst := check_thread_raise_or_kill_first_branch from_call_stack create
    yield_debugger (ts.register_raise exc).state hexc
  have hnil : nil_p first.2.interrupted_exception_ = true := by
    rw [show first.2.interrupted_exception_ = cNil from hfirst.2.1]
    rfl
  refine ⟨hfirst.1, hfirst.2.1, hfirst.2.2.1, ?_, ?_⟩
  · intro hkill hstep
    have h1 : first.2.interrupt_by_kill_ = false := by rw [hfirst.2.2.2.1]; exact hkill
    have h2 : first.2.thread_step_ = false := by rw [hfirst.2.2.2.2]; exact hstep
    show first.2.check_thread_raise_or_kill from_call_stack create yield_debugger = _
    unfold ThreadState.check_thread_raise_or_kill
    simp [hnil, h1, h2]
  · intro hkill
    have h1 : first.2.interrupt_by_kill_ = true := by rw [hfirst.2.2.2.1]; exact hkill
    exact check_thread_raise_or_kill_kill_branch from_call_stack create yield_debugger
      first.2 hnil h1

/-- C13 at a new context and the exception at word 7: the first checkpoint returns true and
the second returns false. -/
theorem register_raise_then_checkpoint_witness :
    nil_p 7 = false ∧
    ((sample_context.register_raise 7).state.check_thread_raise_or_kill
      (fun _ => [3]) (fun _ => 1) (fun st _ => (NULL, st))).1 = true ∧
    (((sample_context.register_raise 7).state.check_thread_raise_or_kill
      (fun _ => [3]) (fun _ => 1) (fun st _ => (NULL, st))).2.check_thread_raise_or_kill
      (fun _ => [3]) (fun _ => 1) (fun st _ => (NULL, st))).1 = false :=
  ⟨by decide,
    (register_raise_then_checkpoint (fun _ => [3]) (fun _ => 1) (fun st _ => (NULL, st))
      sample_context 7 (by decide)).1,
    congrArg Prod.fst
      ((register_raise_then_checkpoint (fun _ => [3]) (fun _ => 1) (fun st _ => (NULL, st))
        sample_context 7 (by decide)).2.2.2.1 rfl rfl)⟩

/-- C16: when `check_thread_raise_or_kill` raises a pending exception, the exception gets
the locations of the current call stack exactly when its locations are nil or empty, and an
exception that carries at least one location keeps its locations; in both cases it is the
exception raised through the unwind state, and no other exception record is written. -/
theorem check_thread_raise_or_kill_locations
    (from_call_stack : ThreadState → List Location) (create : ThreadState → Obj)
    (yield_debugger : ThreadState → Obj → Obj × ThreadState) (state : ThreadState)
    (hexc : nil_p state.interrupted_exception_ = false) :
    ((state.memory.exception state.interrupted_exception_).locations = none ∨
        (state.memory.exception state.interrupted_exception_).locations = some [] →
      ((state.check_thread_raise_or_kill from_call_stack create
          yield_debugger).2.memory.exception state.interrupted_exception_).locations
        = some (from_call_stack state.clear_interrupted_exception)) ∧
    (∀ location rest,
      (state.memory.exception state.interrupted_exception_).locations
          = some (location :: rest) →
      ((state.check_thread_raise_or_kill from_call_stack create
          yield_debugger).2.memory.exception state.interrupted_exception_).locations
        = some (location :: rest)) ∧
    (∀ other, other ≠ state.interrupted_exception_ →
      (state.check_thread_raise_or_kill from_call_stack create
          yield_debugger).2.memory.exception other = state.memory.exception other) ∧
    ((state.check_thread_raise_or_kill from_call_stack create
        yield_debugger).2.memory.unwind_state
      (state.check_thread_raise_or_kill from_call_stack create
        yield_debugger).2.unwind_state_).current_exception
      = state.interrupted_exception_ := by
  unfold ThreadState.check_thread_raise_or_kill
  simp only [hexc, Bool.not_false, if_true, ThreadState.clear_interrupted_exception,
    ThreadState.unwind_state]
  refine ⟨?_, ?_, ?_, ?_⟩
  · rintro (h | h) <;>
      by_cases hnull : state.unwind_state_ = NULL <;>
      simp [Exception.no_locations, h, hnull, UnwindState.raise_exception,
        Exception.set_locations]
  · intro location rest h
    by_cases hnull : state.unwind_state_ = NULL <;>
      simp [Exception.no_locations, h, hnull, UnwindState.raise_exception,
        Exception.set_locations]
  · intro other hother
    by_cases hnull : state.unwind_state_ = NULL <;>
      cases hloc : (state.memory.exception state.interrupted_exception_).no_locations <;>
      simp [hloc, hnull, UnwindState.raise_exception, Exception.set_locations,
        Function.update_noteq hother]
  · by_cases hnull : state.unwind_state_ = NULL <;>
      cases hloc : (state.memory.exception state.interrupted_exception_).no_locations <;>
      simp [hloc, hnull, UnwindState.raise_exception, Exception.set_locations]

/-- C16 at a new context with the exception at word 7 pending, which has no locations: it
is raised with the locations of the call stack. -/
theorem check_thread_raise_or_kill_locations_witness :
    nil_p 7 = false ∧
    (((({ sample_context with interrupted_exception_ := 7 } : ThreadState).check_thread_raise_or_kill
      (fun _ => [3]) (fun _ => 1) (fun st _ => (NULL, st))).2.memory.exception 7).locations)
      = some [3] :=
  ⟨by decide,
    (check_thread_raise_or_kill_locations (fun _ => [3]) (fun _ => 1)
      (fun st _ => (NULL, st)) { sample_context with interrupted_exception_ := 7 }
      (by decide)).1 (Or.inl rfl)⟩

/-- C19: `check_thread_raise_or_kill` returns true exactly when an exception is pending, or
a kill is requested, or a step is requested and the debugger hook, called with the step
request cleared, declines to resume; with no exception pending, no kill and no step
requested it returns false and leaves the context as it was; with no exception pending
and no kill requested, a step request is cleared before the hook is called, the context
left being the one the hook leaves; and a checkpoint that raises a pending exception or
handles a kill returns before the step test and leaves the step request as it was. -/
theorem check_thread_raise_or_kill_result
    (from_call_stack : ThreadState → List Location) (create : ThreadState → Obj)
    (yield_debugger : ThreadState → Obj → Obj × ThreadState) (state : ThreadState) :
    ((state.check_thread_raise_or_kill from_call_stack create yield_debugger).1 = true ↔
      (nil_p state.interrupted_exception_ = false ∨ state.interrupt_by_kill_ = true ∨
        (state.thread_step_ = true ∧
          (yield_debugger state.clear_thread_step cNil).1 = NULL))) ∧
    (nil_p state.interrupted_exception_ = true → state.interrupt_by_kill_ = false →
      state.thread_step_ = false →
      state.check_thread_raise_or_kill from_call_stack create yield_debugger
        = (false, state)) ∧
    (nil_p state.interrupted_exception_ = true → state.interrupt_by_kill_ = false →
      state.thread_step_ = true →
      state.clear_thread_step.thread_step_ = false ∧
      (state.check_thread_raise_or_kill from_call_stack create yield_debugger).2
        = (yield_debugger state.clear_thread_step cNil).2) ∧
    ((nil_p state.interrupted_exception_ = false ∨ state.interrupt_by_kill_ = true) →
      (state.check_thread_raise_or_kill from_call_stack create
          yield_debugger).2.thread_step_ = state.thread_step_) := by
  refine ⟨?_, ?_, ?_, ?_⟩
  · cases hexc : nil_p state.interrupted_exception_
    · simp [(check_thread_raise_or_kill_first_branch from_call_stack create yield_debugger
        state hexc).1]
    · cases hkill : state.interrupt_by_kill_
      · cases hstep : state.thread_step_
        · simp [ThreadState.check_thread_raise_or_kill, hexc, hkill, hstep]
        · by_cases hr : (yield_debugger state.clear_thread_step cNil).1 = NULL <;>
            simp [ThreadState.check_thread_raise_or_kill, hexc, hkill, hstep, hr]
      · simp [(check_thread_raise_or_kill_kill_branch from_call_stack create yield_debugger
          state hexc hkill).1]
  · intro hexc hkill hstep
    simp [ThreadState.check_thread_raise_or_kill, hexc, hkill, hstep]
  · intro hexc hkill hstep
    refine ⟨rfl, ?_⟩
    by_cases hr : (yield_debugger state.clear_thread_step cNil).1 = NULL <;>
      simp [ThreadState.check_thread_raise_or_kill, hexc, hkill, hstep, hr]
  · intro h
    cases hexc : nil_p state.interrupted_exception_
    · exact (check_thread_raise_or_kill_first_branch from_call_stack create yield_debugger
        state hexc).2.2.2.2
    · have hkill : state.interrupt_by_kill_ = true := by
        rcases h with h | h
        · rw [hexc] at h; cases h
        · exact h
      by_cases hnull : state.unwind_state_ = NULL <;>
        cases hroot :
          (state.memory.fiber (state.memory.thread state.thread_).current_fiber).root_p <;>
        simp [ThreadState.check_thread_raise_or_kill, hexc, hkill, hnull, hroot,
          ThreadState.unwind_state, ThreadState.clear_interrupt_by_kill,
          ThreadState.set_check_local_interrupts, UnwindState.raise_thread_kill]

/-- C19 at a new context with a step requested and a hook that declines to resume: the
checkpoint returns true; and at a new context with nothing requested: it returns false. -/
theorem check_thread_raise_or_kill_result_witness :
    (({ sample_context with thread_step_ := true } : ThreadState).check_thread_raise_or_kill
      (fun _ => []) (fun _ => 1) (fun st _ => (NULL, st))).1 = true ∧
    sample_context.check_thread_raise_or_kill (fun _ => []) (fun _ => 1)
      (fun st _ => (NULL, st)) = (false, sample_context) :=
  ⟨(check_thread_raise_or_kill_result (fun _ => []) (fun _ => 1) (fun st _ => (NULL, st))
      { sample_context with thread_step_ := true }).1.2 (Or.inr (Or.inr ⟨rfl, rfl⟩)),
    (check_thread_raise_or_kill_result (fun _ => []) (fun _ => 1) (fun st _ => (NULL, st))
      sample_context).2.1 (by decide) rfl rfl⟩

/-! ## Register handlers, type assertion, lock release: claims -/

/-- C15: each of the handlers `n_ddiv`, `n_dge` and `n_dle`, started on a frame with
instruction pointer `start_ip` and with an instruction body that leaves the instruction
pointer alone, returns what the handler stored at `opcodes[start_ip + width]` returns on
the frame whose `ip` is `start_ip + width`; and in a stream where the cell after `n_ddiv`
addresses `n_dge` and the cell after that `n_dge` addresses `n_dle`, the three are entered
at `start_ip`, `start_ip + w1` and `start_ip + w1 + w2`, and the handler invoked after
them is the one stored at `opcodes[start_ip + w1 + w2 + w3]`, on a frame with that `ip`. -/
theorem register_handlers_advance_by_width
    (argument : (Int → Int) → CallFrame → Int → Int)
    (instr_ddiv instr_dge instr_dle : CallFrame → Int → Int → Int → CallFrame)
    (data_n_ddiv data_n_dge data_n_dle : InstructionData)
    (call call1 call2 : Int → Instruction)
    (state : ThreadState) (call_frame : CallFrame) (opcodes : Int → Int)
    (hddiv : ∀ frame r0 r1 r2, (instr_ddiv frame r0 r1 r2).ip = frame.ip)
    (hdge : ∀ frame r0 r1 r2, (instr_dge frame r0 r1 r2).ip = frame.ip)
    (hdle : ∀ frame r0 r1 r2, (instr_dle frame r0 r1 r2).ip = frame.ip) :
    let after_ddiv : CallFrame :=
      { instr_ddiv call_frame (argument opcodes call_frame 0) (argument opcodes call_frame 1)
          (argument opcodes call_frame 2) with
        ip := call_frame.ip + data_n_ddiv.width }
    let after_dge : CallFrame :=
      { instr_dge after_ddiv (argument opcodes after_ddiv 0) (argument opcodes after_ddiv 1)
          (argument opcodes after_ddiv 2) with
        ip := call_frame.ip + data_n_ddiv.width + data_n_dge.width }
    let after_dle : CallFrame :=
      { instr_dle after_dge (argument opcodes after_dge 0) (argument opcodes after_dge 1)
          (argument opcodes after_dge 2) with
        ip := call_frame.ip + data_n_ddiv.width + data_n_dge.width + data_n_dle.width }
    interpreter.n_ddiv argument instr_ddiv data_n_ddiv call state call_frame opcodes
      = call (opcodes (call_frame.ip + data_n_ddiv.width)) state after_ddiv opcodes ∧
    interpreter.n_dge argument instr_dge data_n_dge call state call_frame opcodes
      = call (opcodes (call_frame.ip + data_n_dge.width)) state
          { instr_dge call_frame (argument opcodes call_frame 0)
              (argument opcodes call_frame 1) (argument opcodes call_frame 2) with
            ip := call_frame.ip + data_n_dge.width }
          opcodes ∧
    interpreter.n_dle argument instr_dle data_n_dle call state call_frame opcodes
      = call (opcodes (call_frame.ip + data_n_dle.width)) state
          { instr_dle call_frame (argument opcodes call_frame 0)
              (argument opcodes call_frame 1) (argument opcodes call_frame 2) with
            ip := call_frame.ip + data_n_dle.width }
          opcodes ∧
    (call (opcodes (call_frame.ip + data_n_ddiv.width))
        = interpreter.n_dge argument instr_dge data_n_dge call1 →
      call1 (opcodes (call_frame.ip + data_n_ddiv.width + data_n_dge.width))
        = interpreter.n_dle argument instr_dle data_n_dle call2 →
      interpreter.n_ddiv argument instr_ddiv data_n_ddiv call state call_frame opcodes
        = call2
            (opcodes (call_frame.ip + data_n_ddiv.width + data_n_dge.width
              + data_n_dle.width))
            state after_dle opcodes) := by
  intro after_ddiv after_dge after_dle
  have h1 : ∀ (c : Int → Instruction) (frame : CallFrame),
      interpreter.n_ddiv argument instr_ddiv data_n_ddiv c state frame opcodes
        = c (opcodes (frame.ip + data_n_ddiv.width)) state
            { instr_ddiv frame (argument opcodes frame 0) (argument opcodes frame 1)
                (argument opcodes frame 2) with ip := frame.ip + data_n_ddiv.width }
            opcodes := by
    intro c frame
    simp only [interpreter.n_ddiv, CallFrame.next_ip, hddiv]
  have h2 : ∀ (c : Int → Instruction) (frame : CallFrame),
      interpreter.n_dge argument instr_dge data_n_dge c state frame opcodes
        = c (opcodes (frame.ip + data_n_dge.width)) state
            { instr_dge frame (argument opcodes frame 0) (argument opcodes frame 1)
                (argument opcodes frame 2) with ip := frame.ip + data_n_dge.width }
            opcodes := by
    intro c frame
    simp only [interpreter.n_dge, CallFrame.next_ip, hdge]
  have h3 : ∀ (c : Int → Instruction) (frame : CallFrame),
      interpreter.n_dle argument instr_dle data_n_dle c state frame opcodes
        = c (opcodes (frame.ip + data_n_dle.width)) state
            { instr_dle frame (argument opcodes frame 0) (argument opcodes frame 1)
                (argument opcodes frame 2) with ip := frame.ip + data_n_dle.width }
            opcodes := by
    intro c frame
    simp only [interpreter.n_dle, CallFrame.next_ip, hdle]
  refine ⟨h1 call call_frame, h2 call call_frame, h3 call call_frame, ?_⟩
  intro hcall hcall1
  rw [h1 call call_frame, hcall, h2 call1]
  show call1 (opcodes (call_frame.ip + data_n_ddiv.width + data_n_dge.width)) state
      after_dge opcodes = _
  rw [hcall1, h3 call2]

/-- C15 at the sample stream: `n_ddiv` of width 4 entered at 10 is followed by `n_dge`
entered at 14 and `n_dle` entered at 18, and the handler invoked after them is entered
at 22. -/
theorem register_handlers_advance_by_width_witness :
    (∀ frame r0 r1 r2, (sample_register_instruction frame r0 r1 r2).ip = frame.ip) ∧
    sample_dispatch 2 (sample_opcodes (10 + 4))
      = interpreter.n_dge sample_argument sample_register_instruction { width := 4 }
          (sample_dispatch 1) ∧
    interpreter.n_ddiv sample_argument sample_register_instruction { width := 4 }
      (sample_dispatch 2) sample_context { CallFrame.blank with ip := 10 } sample_opcodes
      = 22 :=
  ⟨fun _ _ _ _ => rfl, rfl, by
    have h := (register_handlers_advance_by_width sample_argument
      sample_register_instruction sample_register_instruction sample_register_instruction
      { width := 4 } { width := 4 } { width := 4 }
      (sample_dispatch 2) (sample_dispatch 1) (sample_dispatch 0)
      sample_context { CallFrame.blank with ip := 10 } sample_opcodes
      (fun _ _ _ _ => rfl) (fun _ _ _ _ => rfl) (fun _ _ _ _ => rfl)).2.2.2 rfl rfl
    rw [h]
    rfl⟩

/-- C17, as stated, fails: in the sample object model the word `cNil` is not a reference,
type 5 is the type of the object at the reference 8 and is not `FixnumType`, and
`type_assert` of `cNil` against type 5 raises nothing. -/
theorem type_assert_counterexample :
    sample_object_model.reference_p cNil = false ∧
    sample_object_model.reference_p 8 = true ∧
    sample_object_model.type_id 8 = 5 ∧
    sample_object_model.FixnumType ≠ 5 ∧
    type_assert sample_object_model cNil 5 "String expected" = Except.ok () := by
  refine ⟨by decide, by decide, by decide, by decide, ?_⟩
  rfl

/-- C17, amended: `type_assert(obj, type)` raises a type error, whose message is the given
reason, a colon and the description of the value, exactly when `obj` is a reference whose
`type_id` is not the required type, or the required type is `FixnumType` and `obj` is not a
fixnum; otherwise it raises nothing, so a reference of the required type (other than
`FixnumType`) is accepted, and so is every non-reference value presented where a type
other than `FixnumType` is required. -/
theorem type_assert_raises (om : ObjectModel) (obj : Obj) (type : object_type)
    (reason : String) :
    (type_assert om obj type reason
        = Except.error
            { type := type, obj := obj, message := reason ++ ": " ++ om.to_string obj } ↔
      ((om.reference_p obj = true ∧ om.type_id obj ≠ type) ∨
        (type = om.FixnumType ∧ om.fixnum_p obj = false))) ∧
    (type_assert om obj type reason = Except.ok () ↔
      ¬ ((om.reference_p obj = true ∧ om.type_id obj ≠ type) ∨
        (type = om.FixnumType ∧ om.fixnum_p obj = false))) ∧
    (om.reference_p obj = true → om.type_id obj = type → type ≠ om.FixnumType →
      type_assert om obj type reason = Except.ok ()) ∧
    (om.reference_p obj = false → type ≠ om.FixnumType →
      type_assert om obj type reason = Except.ok ()) := by
  have hcond : ((om.reference_p obj && om.type_id obj != type)
        || (type == om.FixnumType && !om.fixnum_p obj)) = true ↔
      ((om.reference_p obj = true ∧ om.type_id obj ≠ type) ∨
        (type = om.FixnumType ∧ om.fixnum_p obj = false)) := by
    simp
  unfold type_assert
  by_cases h : ((om.reference_p obj && om.type_id obj != type)
        || (type == om.FixnumType && !om.fixnum_p obj)) = true
  · have h2 := hcond.1 h
    rw [if_pos h]
    refine ⟨⟨fun _ => h2, fun _ => rfl⟩, ⟨fun hne => (by cases hne), fun hn => absurd h2 hn⟩,
      ?_, ?_⟩
    · intro hr ht hf
      rcases h2 with ⟨_, hne⟩ | ⟨hfix, _⟩
      · exact absurd ht hne
      · exact absurd hfix hf
    · intro hr hf
      rcases h2 with ⟨hr2, _⟩ | ⟨hfix, _⟩
      · rw [hr] at hr2; cases hr2
      · exact absurd hfix hf
  · have h2 : ¬ ((om.reference_p obj = true ∧ om.type_id obj ≠ type) ∨
        (type = om.FixnumType ∧ om.fixnum_p obj = false)) := fun hc => h (hcond.2 hc)
    rw [if_neg h]
    exact ⟨⟨fun hne => (by cases hne), fun hc => absurd hc h2⟩, ⟨fun _ => h2, fun _ => rfl⟩,
      fun _ _ _ => rfl, fun _ _ => rfl⟩

/-- C17, amended, at the sample object model: the reference 8, of type 5, is accepted for
type 5 and rejected for type 6, and the even word 12 is rejected for `FixnumType`. -/
theorem type_assert_raises_witness :
    sample_object_model.reference_p 8 = true ∧
    type_assert sample_object_model 8 5 "expected" = Except.ok () ∧
    type_assert sample_object_model 8 6 "expected"
      = Except.error { type := 6, obj := 8, message := "expected: a value" } ∧
    type_assert sample_object_model 12 1 "expected"
      = Except.error { type := 1, obj := 12, message := "expected: a value" } :=
  ⟨by decide,
    (type_assert_raises sample_object_model 8 5 "expected").2.2.1 (by decide) (by decide)
      (by decide),
    (type_assert_raises sample_object_model 8 6 "expected").1.2
      (Or.inl ⟨by decide, by decide⟩),
    (type_assert_raises sample_object_model 12 1 "expected").1.2
      (Or.inr ⟨by decide, by decide⟩)⟩

/-- The releases of the interrupt lock in `wakeup`, on every path: one, made while the
lock is held, on the unpark path and on the path with nothing to wake; two, the second
made when the lock is no longer held, on the signal, waiting-object, channel and custom
callback paths. -/
theorem wakeup_releases (ts : ThreadState) :
    release_count Lock.interrupt_lock_ ts.wakeup.events
      = (if ts.park_.parked_p = true then 1
         else if ts.interrupt_with_signal_ = true ∨ nil_p ts.waiting_object_ = false ∨
             nil_p ts.waiting_channel_ = false ∨ ts.custom_wakeup_ ≠ 0 then 2
         else 1) ∧
    releases_held Lock.interrupt_lock_ false ts.wakeup.events
      = (ts.park_.parked_p ||
          !(ts.interrupt_with_signal_ || !nil_p ts.waiting_object_ ||
            !nil_p ts.waiting_channel_ || decide (ts.custom_wakeup_ ≠ 0))) := by
  unfold ThreadState.wakeup
  simp only [ThreadState.set_check_local_interrupts]
  by_cases h1 : ts.park_.parked_p = true
  · simp [h1, lock_guard, release_count, releases_held]
  · by_cases h2 : ts.interrupt_with_signal_ = true
    · simp [h1, h2, lock_guard, release_count, releases_held]
    · by_cases h3 : nil_p ts.waiting_object_ = true
      · by_cases h4 : nil_p ts.waiting_channel_ = true
        · by_cases h5 : ts.custom_wakeup_ = 0
          · simp [h1, h2, h3, h4, h5, lock_guard, release_count, releases_held]
          · simp [h1, h2, h3, h4, h5, lock_guard, release_count, releases_held]
        · simp [h1, h2, h3, h4, lock_guard, release_count, releases_held]
      · simp [h1, h2, h3, lock_guard, release_count, releases_held]

/-- C20 fails on the code: in a context that is not parked and has `interrupt_with_signal`
set, `wakeup` takes the interrupt lock once and releases it twice, first by the explicit
`unlock()` and then by the guard, the second release being made when the lock is no longer
held. -/
theorem wakeup_releases_twice :
    ({ sample_context with interrupt_with_signal_ := true } : ThreadState).wakeup.events
      = [Event.lock Lock.interrupt_lock_, Event.write Field.check_local_interrupts_,
          Event.read Field.waiting_object_, Event.read Field.interrupt_with_signal_,
          Event.pthread_kill 0 Signal.SIGVTALRM, Event.unlock Lock.interrupt_lock_,
          Event.unlock Lock.interrupt_lock_] ∧
    release_count Lock.interrupt_lock_
      ({ sample_context with interrupt_with_signal_ := true } : ThreadState).wakeup.events
      = 2 ∧
    releases_held Lock.interrupt_lock_ false
      ({ sample_context with interrupt_with_signal_ := true } : ThreadState).wakeup.events
      = false ∧
    release_count Lock.interrupt_lock_ sample_context.wakeup.events = 1 ∧
    releases_held Lock.interrupt_lock_ false sample_context.wakeup.events = true := by
  decide

/-! ## Variables frame: claim -/

theorem find_variables_frame_spec (frames : List CallFrame) :
    (∀ frame rest, find_variables_frame frames = frame :: rest →
      ∃ k, frames.drop k = frame :: rest ∧
        frame.is_inline_block = false ∧ frame.native_method_p = false ∧
        frame.scope.isSome = true ∧
        ∀ (j : Nat) (other : CallFrame), j < k → frames[j]? = some other →
          ¬ (other.is_inline_block = false ∧ other.native_method_p = false ∧
            other.scope.isSome = true)) ∧
    (find_variables_frame frames = [] ↔
      ∀ (j : Nat) (other : CallFrame), frames[j]? = some other →
        ¬ (other.is_inline_block = false ∧ other.native_method_p = false ∧
          other.scope.isSome = true)) := by
  induction frames with
  | nil => simp [find_variables_frame]
  | cons fr previous ih =>
    unfold find_variables_frame
    by_cases hgood : (!fr.is_inline_block && !fr.native_method_p && fr.scope.isSome) = true
    · rw [if_pos hgood]
      have hg : fr.is_inline_block = false ∧ fr.native_method_p = false ∧
          fr.scope.isSome = true := by
        simpa [Bool.and_eq_true, and_assoc] using hgood
      constructor
      · intro frame rest heq
        have h1 : fr = frame := (List.cons.inj heq).1
        subst h1
        exact ⟨0, by simpa using heq, hg.1, hg.2.1, hg.2.2, fun j other hj => by omega⟩
      · constructor
        · intro h; cases h
        · intro h
          exact absurd hg (h 0 fr (by simp))
    · rw [if_neg hgood]
      have hg : ¬ (fr.is_inline_block = false ∧ fr.native_method_p = false ∧
          fr.scope.isSome = true) := by
        intro hc
        apply hgood
        simp [hc.1, hc.2.1, hc.2.2]
      constructor
      · intro frame rest heq
        obtain ⟨k, hk, h1, h2, h3, hmin⟩ := ih.1 frame rest heq
        refine ⟨k + 1, by simpa using hk, h1, h2, h3, ?_⟩
        intro j other hj hget
        cases j with
        | zero =>
          simp only [List.getElem?_cons_zero, Option.some.injEq] at hget
          subst hget
          exact hg
        | succ i =>
          exact hmin i other (by omega) (by simpa using hget)
      · rw [ih.2]
        constructor
        · intro h j other hget
          cases j with
          | zero =>
            simp only [List.getElem?_cons_zero, Option.some.injEq] at hget
            subst hget
            exact hg
          | succ i => exact h i other (by simpa using hget)
        · intro h j other hget
          exact h (j + 1) other (by simpa using hget)

/-- C21: `get_variables_frame(up)` returns the frame nearest the top, among the frames at
depth at least `max(up, 0)` of the chain, that is not an inline block, is not a
native-method frame and has a scope: the frame returned stands at such a depth, satisfies
the three conditions, and no frame between `max(up, 0)` and it does; null is returned
exactly when no frame at depth at least `max(up, 0)` satisfies them, which includes every
`up` that is at least the chain length. -/
theorem get_variables_frame_nearest (ts : ThreadState) (up : Int) :
    (∀ frame rest, ts.get_variables_frame up = frame :: rest →
      ∃ depth, up.toNat ≤ depth ∧ ts.call_frame_.drop depth = frame :: rest ∧
        frame.is_inline_block = false ∧ frame.native_method_p = false ∧
        frame.scope.isSome = true ∧
        ∀ (d : Nat) (other : CallFrame), up.toNat ≤ d → d < depth → ts.call_frame_[d]? = some other →
          ¬ (other.is_inline_block = false ∧ other.native_method_p = false ∧
            other.scope.isSome = true)) ∧
    (ts.get_variables_frame up = [] ↔
      ∀ (d : Nat) (other : CallFrame), up.toNat ≤ d → ts.call_frame_[d]? = some other →
        ¬ (other.is_inline_block = false ∧ other.native_method_p = false ∧
          other.scope.isSome = true)) ∧
    ((ts.call_frame_.length : Int) ≤ up → ts.get_variables_frame up = []) := by
  unfold ThreadState.get_variables_frame
  rw [walk_previous_eq_drop]
  have hspec := find_variables_frame_spec (ts.call_frame_.drop up.toNat)
  have hnull : find_variables_frame (List.drop up.toNat ts.call_frame_) = [] ↔
      ∀ (d : Nat) (other : CallFrame), up.toNat ≤ d → ts.call_frame_[d]? = some other →
        ¬ (other.is_inline_block = false ∧ other.native_method_p = false ∧
          other.scope.isSome = true) := by
    rw [hspec.2]
    constructor
    · intro h d other hd hget
      apply h (d - up.toNat) other
      rw [List.getElem?_drop]
      have : up.toNat + (d - up.toNat) = d := by omega
      rw [this]
      exact hget
    · intro h j other hget
      rw [List.getElem?_drop] at hget
      exact h (up.toNat + j) other (by omega) hget
  refine ⟨?_, hnull, ?_⟩
  · intro frame rest heq
    obtain ⟨k, hk, h1, h2, h3, hmin⟩ := hspec.1 frame rest heq
    refine ⟨up.toNat + k, by omega, ?_, h1, h2, h3, ?_⟩
    · rw [← hk, List.drop_drop]
    · intro d other hd hlt hget
      apply hmin (d - up.toNat) other (by omega)
      rw [List.getElem?_drop]
      have : up.toNat + (d - up.toNat) = d := by omega
      rw [this]
      exact hget
  · intro hlen
    rw [hnull]
    intro d other hd hget
    have hlt : d < ts.call_frame_.length := by
      by_contra hge
      rw [List.getElem?_eq_none (by omega)] at hget
      cases hget
    omega

/-- C21 at the sample context, whose chain is a native-method frame, an inline-block
frame, a frame with a scope and a frame without scope: from depth 0 the frame returned is
the one at depth 2, and from depth 3 on null is returned. -/
theorem get_variables_frame_nearest_witness :
    (sample_variables_context.get_variables_frame 0).map (fun frame => frame.ip) = [3, 4] ∧
    (sample_variables_context.get_variables_frame 2).map (fun frame => frame.ip) = [3, 4] ∧
    (∃ depth, (0 : Int).toNat ≤ depth ∧
      (sample_variables_context.call_frame_.drop depth).map (fun frame => frame.ip)
        = [3, 4]) ∧
    sample_variables_context.get_variables_frame 3 = [] ∧
    sample_variables_context.get_variables_frame 4 = [] := by
  refine ⟨by decide, by decide, ?_, rfl, ?_⟩
  · have hne : sample_variables_context.get_variables_frame 0
        = { sample_frame with ip := 3 } :: [{ sample_frame_without_scope with ip := 4 }] :=
      rfl
    obtain ⟨depth, hd, hdrop, _⟩ :=
      (get_variables_frame_nearest sample_variables_context 0).1 _ _ hne
    exact ⟨depth, hd, by rw [hdrop]; rfl⟩
  · exact (get_variables_frame_nearest sample_variables_context 4).2.2 (by decide)

end Rubinius
